import Mathlib

/-!
# node_exporter collectors: `edac_linux.go` and `stat_freebsd.go`

A shallow embedding of the two collectors of the repository.

* Strings are lists of characters (`Str`).
* The two regular expressions of `edac_linux.go` are given as item lists and run by a
  backtracking matcher with Go's leftmost-first semantics and greedy stars.
* `filepath.Match`/`filepath.Glob` are modelled over a directory listing.
* `prometheus.NewConstMetric` keeps its label-cardinality check, so a call of
  `MustNewConstMetric` can end the cycle with a panic.
* `edacCollector.Update` and `statCollector.Update` are state-passing functions whose
  outcome records how the call ended and which samples were sent on the channel.

Conventions of the embedding:

* the file system and the kernel are explicit arguments (`Env`, `KernEnv`); the helper
  `readUintFromFile` of the repository is a field of `Env`;
* the sysfs mount point is a clean path, so that `path.Join` only adds a separator;
* a malformed pattern is reported by `glob` as soon as the directory has an entry;
* the value of a sample is the `float64` value itself, which for the two collectors is
  always an integer: `float64` of a `uint64` rounds to 53 significant bits, `float64` of
  an `int32` is exact;
* byte buffers are lists of naturals below 256, read little-endian.
-/

namespace NodeExporter

/-- Strings of the program, as character lists. -/
abbrev Str := List Char

deriving instance DecidableEq for Except

/-! ## Regular expressions (package `regexp`) -/

/-- Character classes used by the two expressions. -/
inductive RxClass where
  /-- The class `.`: every character except the newline. -/
  | dot
  /-- The class `[0-9]`. -/
  | digit
  deriving DecidableEq, Repr

/-- Membership of a character in a class. -/
def RxClass.test : RxClass → Char → Bool
  | .dot, c => c != '\n'
  | .digit, c => decide ('0' ≤ c) && decide (c ≤ '9')

/-- Items of a regular expression: a literal character, or a greedy star over a class,
optionally wrapped in a capture group. -/
inductive RxItem where
  | lit (c : Char)
  | star (cls : RxClass) (capture : Bool)
  deriving DecidableEq, Repr

/-- The literal items of a string. -/
def rxLits (s : Str) : List RxItem := s.map RxItem.lit

/-- Greedy star: consume characters of the class while possible, preferring the longest
run, and hand the consumed run and the remainder to the continuation `k`; on failure of
the continuation give one character back. -/
def starGo {R : Type} (p : Char → Bool) (k : Str → Str → Option R) : Str → Str → Option R
  | acc, [] => k acc []
  | acc, c :: cs =>
    if p c then
      match starGo p k (acc ++ [c]) cs with
      | some r => some r
      | none => k acc (c :: cs)
    else k acc (c :: cs)

/-- Match the items at the start of the input; the result is the list of captured groups
and the unconsumed remainder. -/
def matchItems : List RxItem → Str → Option (List Str × Str)
  | [], s => some ([], s)
  | .lit _ :: _, [] => none
  | .lit c :: rest, d :: s => if c = d then matchItems rest s else none
  | .star cls cap :: rest, s =>
    starGo cls.test
      (fun consumed s' =>
        match matchItems rest s' with
        | some (caps, r) => some (if cap then consumed :: caps else caps, r)
        | none => none)
      [] s

/-- The method `(*Regexp).FindStringSubmatch`: the leftmost match, as the matched text
followed by the captured groups; `none` stands for the nil slice. -/
def FindStringSubmatch (re : List RxItem) : Str → Option (List Str)
  | [] =>
    match matchItems re [] with
    | some (caps, _) => some ([] :: caps)
    | none => none
  | c :: t =>
    match matchItems re (c :: t) with
    | some (caps, r) => some ((c :: t).take ((c :: t).length - r.length) :: caps)
    | none => FindStringSubmatch re t

/-- The expression `.*devices/system/edac/mc/mc([0-9]*)`. -/
def edacMemControllerRE : List RxItem :=
  .star .dot false :: (rxLits "devices/system/edac/mc/mc".toList ++ [.star .digit true])

/-- The expression `.*devices/system/edac/mc/mc[0-9]*/csrow([0-9]*)`. -/
def edacMemCsrowRE : List RxItem :=
  .star .dot false :: (rxLits "devices/system/edac/mc/mc".toList ++
    (.star .digit false :: (rxLits "/csrow".toList ++ [.star .digit true])))

/-! ## Path patterns (package `path/filepath`) -/

/-- Items of a shell file-name pattern. -/
inductive GlobItem where
  /-- An ordinary (or escaped) character. -/
  | lit (c : Char)
  /-- The item `?`: one character other than the separator. -/
  | any
  /-- A class `[...]` or `[^...]` with its ranges. -/
  | cls (negated : Bool) (ranges : List (Char × Char))
  /-- The item `*`: any run of characters other than the separator. -/
  | star
  deriving DecidableEq, Repr

/-- The helper `getEsc` of `filepath.Match`: one possibly escaped character of a class;
`none` is `ErrBadPattern`. -/
def getEsc : Str → Option (Char × Str)
  | [] => none
  | '-' :: _ => none
  | ']' :: _ => none
  | '\\' :: c :: d :: rest => some (c, d :: rest)
  | '\\' :: _ => none
  | _ :: [] => none
  | c :: d :: rest => some (c, d :: rest)

/-- The ranges of a class up to the closing bracket. -/
def parseRanges : Nat → List (Char × Char) → Str → Option (List (Char × Char) × Str)
  | 0, _, _ => none
  | fuel + 1, acc, s =>
    match s, acc with
    | ']' :: rest, _ :: _ => some (acc, rest)
    | _, _ =>
      match getEsc s with
      | none => none
      | some (lo, '-' :: s') =>
        match getEsc s' with
        | none => none
        | some (hi, s'') => parseRanges fuel (acc ++ [(lo, hi)]) s''
      | some (lo, s') => parseRanges fuel (acc ++ [(lo, lo)]) s'

/-- The items of a pattern string; `none` is `ErrBadPattern`. -/
def parsePattern : Nat → Str → Option (List GlobItem)
  | 0, _ => none
  | _ + 1, [] => some []
  | fuel + 1, '*' :: rest => (parsePattern fuel rest).map (GlobItem.star :: ·)
  | fuel + 1, '?' :: rest => (parsePattern fuel rest).map (GlobItem.any :: ·)
  | _ + 1, '\\' :: [] => none
  | fuel + 1, '\\' :: c :: rest => (parsePattern fuel rest).map (GlobItem.lit c :: ·)
  | fuel + 1, '[' :: '^' :: rest =>
    match parseRanges (rest.length + 1) [] rest with
    | none => none
    | some (rs, rest') => (parsePattern fuel rest').map (GlobItem.cls true rs :: ·)
  | fuel + 1, '[' :: rest =>
    match parseRanges (rest.length + 1) [] rest with
    | none => none
    | some (rs, rest') => (parsePattern fuel rest').map (GlobItem.cls false rs :: ·)
  | fuel + 1, c :: rest => (parsePattern fuel rest).map (GlobItem.lit c :: ·)

/-- Whether a character lies in one of the ranges of a class. -/
def inRanges (rs : List (Char × Char)) (c : Char) : Bool :=
  rs.any fun r => decide (r.1 ≤ c) && decide (c ≤ r.2)

/-- The star of a pattern: the rest of the pattern matches here, or after one more
character that is not the separator. -/
def globStar (k : Str → Bool) : Str → Bool
  | [] => k []
  | c :: cs => k (c :: cs) || (c != '/' && globStar k cs)

/-- Whether the whole name matches the items. -/
def matchGlobItems : List GlobItem → Str → Bool
  | [], s => s.isEmpty
  | .star :: rest, s => globStar (fun s' => matchGlobItems rest s') s
  | _ :: _, [] => false
  | .lit c :: rest, d :: s => c == d && matchGlobItems rest s
  | .any :: rest, d :: s => d != '/' && matchGlobItems rest s
  | .cls neg rs :: rest, d :: s => (inRanges rs d != neg) && matchGlobItems rest s

/-- The function `filepath.Match`: `none` is `ErrBadPattern`. -/
def Match (pattern name : Str) : Option Bool :=
  (parsePattern (pattern.length + 1) pattern).map fun items => matchGlobItems items name

/-- The function `hasMeta` of `filepath.Glob`. -/
def hasMeta (path : Str) : Bool := path.any fun c => c == '*' || c == '?' || c == '['

/-- Split a reversed path at its last separator: the reversed file part and the reversed
directory part, the separator included. -/
def splitRev : Str → Str → Str × Str
  | file, [] => (file, [])
  | file, c :: rest => if c = '/' then (file, c :: rest) else splitRev (c :: file) rest

/-- The function `filepath.Split`: the directory (with its final separator) and the file. -/
def Split (path : Str) : Str × Str :=
  let r := splitRev [] path.reverse
  (r.2.reverse, r.1)

/-- The function `cleanGlobPath`. -/
def cleanGlobPath (dir : Str) : Str :=
  if dir = [] then ".".toList
  else if dir = "/".toList then dir
  else dir.dropLast

/-- The function `path.Join` on a clean directory and one name. -/
def pathJoin (dir name : Str) : Str :=
  if dir = [] ∨ dir = ".".toList then name
  else if dir = "/".toList then '/' :: name
  else dir ++ '/' :: name

/-- Byte-wise order of strings, as used by `sort.Strings`. -/
def strLe : Str → Str → Bool
  | [], _ => true
  | _ :: _, [] => false
  | a :: s, b :: t => decide (a < b) || (a == b && strLe s t)

/-- The function `sort.Strings`. -/
def sortStrings (names : List Str) : List Str :=
  names.insertionSort fun a b => strLe a b = true

/-- The file system as the collector sees it. -/
structure Env where
  /-- The value of the flag holding the sysfs mount point, a clean path. -/
  sysPath : Str
  /-- The entry names of a directory; `none` when the path is not a readable directory. -/
  readdir : Str → Option (List Str)
  /-- Whether `os.Lstat` succeeds on a path. -/
  lstat : Str → Bool
  /-- The helper `readUintFromFile` of the repository: the unsigned integer held by a
  file, or the error of reading or parsing it. -/
  readUintFromFile : Str → Except Str Nat

/-- The error `filepath.ErrBadPattern`. -/
def ErrBadPattern : Str := "syntax error in pattern".toList

/-- The helper `glob` of `filepath.Glob`: the entries of one directory that match the
pattern, appended to the found found so far. -/
def glob (env : Env) (dir pattern : Str) (found : List Str) : Except Str (List Str) :=
  match env.readdir dir with
  | none => .ok found
  | some names =>
    match sortStrings names with
    | [] => .ok found
    | n :: ns =>
      match parsePattern (pattern.length + 1) pattern with
      | none => .error ErrBadPattern
      | some items =>
        .ok (found ++ ((n :: ns).filter (matchGlobItems items)).map (pathJoin dir))

/-- Run `glob` over several directories, stopping at the first error. -/
def globAll (env : Env) (pattern : Str) : List Str → List Str → Except Str (List Str)
  | [], found => .ok found
  | d :: ds, found =>
    match glob env d pattern found with
    | .error e => .error e
    | .ok m => globAll env pattern ds m

/-- The function `filepath.Glob`; the fuel bounds the recursion on the directory part. -/
def GlobFuel (env : Env) : Nat → Str → Except Str (List Str)
  | 0, _ => .error ErrBadPattern
  | fuel + 1, pattern =>
    if !hasMeta pattern then
      (if env.lstat pattern then .ok [pattern] else .ok [])
    else
      let dir := cleanGlobPath (Split pattern).1
      let file := (Split pattern).2
      if !hasMeta dir then glob env dir file []
      else if dir = pattern then .error ErrBadPattern
      else
        match GlobFuel env fuel dir with
        | .error e => .error e
        | .ok m => globAll env file m []

/-- The function `filepath.Glob`. -/
def Glob (env : Env) (pattern : Str) : Except Str (List Str) :=
  GlobFuel env (pattern.length + 1) pattern

/-- Modelled from the spec: the root-path resolver `sysFilePath` (its source is not in
the files at hand), which joins the sysfs mount point and a relative name. -/
def sysFilePath (env : Env) (name : Str) : Str :=
  pathJoin env.sysPath name

/-! ## Metrics (package `prometheus`) -/

/-- The type `prometheus.ValueType`. -/
inductive ValueType where
  | CounterValue
  | GaugeValue
  | UntypedValue
  deriving DecidableEq, Repr

/-- The type `prometheus.Desc`: fully-qualified name, help text and the names of the
variable labels. -/
structure Desc where
  fqName : Str
  help : Str
  variableLabels : List Str
  deriving DecidableEq, Repr

/-- A constant metric as built by `prometheus.NewConstMetric`. The field `val` is the
`float64` value of the sample; every value built by the two collectors is an integer. -/
structure Metric where
  desc : Desc
  valType : ValueType
  val : Int
  labelValues : List Str
  deriving DecidableEq, Repr

/-- The function `prometheus.BuildFQName`. -/
def BuildFQName (namespace_ subsystem name : Str) : Str :=
  if name = [] then []
  else if namespace_ ≠ [] ∧ subsystem ≠ [] then namespace_ ++ '_' :: (subsystem ++ '_' :: name)
  else if namespace_ ≠ [] then namespace_ ++ '_' :: name
  else if subsystem ≠ [] then subsystem ++ '_' :: name
  else name

/-- The function `prometheus.NewDesc` without constant labels. -/
def NewDesc (fqName help : Str) (variableLabels : List Str) : Desc :=
  ⟨fqName, help, variableLabels⟩

/-- The error `errInconsistentCardinality`. -/
def errInconsistentCardinality : Str := "inconsistent label cardinality".toList

/-- The function `prometheus.NewConstMetric`: it refuses a list of label values whose
length differs from the number of variable labels of the descriptor. -/
def NewConstMetric (desc : Desc) (valueType : ValueType) (value : Int)
    (labelValues : List Str) : Except Str Metric :=
  if desc.variableLabels.length ≠ labelValues.length then .error errInconsistentCardinality
  else .ok ⟨desc, valueType, value, labelValues⟩

/-- How a call of `Update` ends: it returns (nil or an error), or it panics. -/
inductive Ending where
  | returned (err : Option Str)
  | panicked (msg : Str)
  deriving DecidableEq, Repr

/-- The outcome of one call of `Update`: how it ended and the samples sent on the
channel, in the order of sending. -/
structure Outcome where
  ending : Ending
  sent : List Metric
  deriving DecidableEq, Repr

/-- The function `prometheus.MustNewConstMetric` followed by the send on the channel: a
refused sample panics before anything is sent. -/
def sendConstMetric (sent : List Metric) (desc : Desc) (valueType : ValueType) (value : Int)
    (labelValues : List Str) : Except Outcome (List Metric) :=
  match NewConstMetric desc valueType value labelValues with
  | .error e => .error ⟨.panicked e, sent⟩
  | .ok m => .ok (sent ++ [m])

/-! ## The collector of `edac_linux.go` -/

/-- Modelled from the spec: the constant `Namespace` of the repository (its source is
not in the files at hand); the spec gives the metric names as `node_edac_...`. -/
def Namespace : Str := "node".toList

/-- The constant `edacSubsystem`. -/
def edacSubsystem : Str := "edac".toList

/-- The type `edacCollector`. -/
structure edacCollector where
  ceCount : Desc
  ceNoinfoCount : Desc
  ueCount : Desc
  ueNoinfoCount : Desc
  csrowCeCount : Desc
  csrowUeCount : Desc
  deriving DecidableEq, Repr

/-- The function `NewEdacCollector`. -/
def NewEdacCollector : edacCollector where
  ceCount := NewDesc
    (BuildFQName Namespace edacSubsystem "correctable_errors_total".toList)
    "Total correctable memory errors.".toList
    ["controller".toList]
  ceNoinfoCount := NewDesc
    (BuildFQName Namespace edacSubsystem "no_csrow_correctable_errors_total".toList)
    "Total correctable memory errors with no DIMM information.".toList
    ["controller".toList]
  ueCount := NewDesc
    (BuildFQName Namespace edacSubsystem "uncorrectable_errors_total".toList)
    "Total uncorrectable memory errors.".toList
    ["controller".toList]
  ueNoinfoCount := NewDesc
    (BuildFQName Namespace edacSubsystem "no_csrow_uncorrectable_errors_total".toList)
    "Total uncorrectable memory errors with no DIMM information.".toList
    ["controller".toList]
  csrowCeCount := NewDesc
    (BuildFQName Namespace edacSubsystem "csrow_correctable_errors_total".toList)
    "Total correctable memory errors for this csrow.".toList
    ["controller".toList, "csrow".toList]
  csrowUeCount := NewDesc
    (BuildFQName Namespace edacSubsystem "csrow_uncorrectable_errors_total".toList)
    "Total correctable memory errors for this csrow.".toList
    ["controller".toList, "csrow".toList]

/-- The verb `%s` of package `fmt` applied to a slice of strings: the elements separated
by blanks, in square brackets. -/
def fmtStrings (l : List Str) : Str :=
  '[' :: (" ".toList.intercalate l ++ [']'])

/-- The error text `couldn't get <name> for controller %s: %s` built by `fmt.Errorf` from
the submatch slice and the read error. -/
def readErrorText (name : Str) (controllerNumber : List Str) (err : Str) : Str :=
  "couldn't get ".toList ++ name ++ " for controller ".toList ++ fmtStrings controllerNumber
    ++ ": ".toList ++ err

/-- The error text `controller number string didn't match regexp: %s`. -/
def noMatchErrorText (controller : Str) : Str :=
  "controller number string didn't match regexp: ".toList ++ controller

/-- The number of low bits that a natural number loses when it is cut to 53 significant
bits. -/
def float64Shift : Nat → Nat → Nat
  | 0, _ => 0
  | fuel + 1, n => if n < 9007199254740992 then 0 else 1 + float64Shift fuel (n / 2)

/-- The conversion `float64(value)` of a `uint64`: exact below `2^53`, else rounded to 53
significant bits, to nearest with ties to even. The result is again an integer. -/
def float64OfUint64 (n : Nat) : Nat :=
  let e := float64Shift 64 n
  let q := n / 2 ^ e
  let r := n % 2 ^ e
  if 2 * r > 2 ^ e ∨ (2 * r = 2 ^ e ∧ q % 2 = 1) then (q + 1) * 2 ^ e else q * 2 ^ e

/-- One of the four read-and-send blocks of the loop body: read the counter file `name`
of the controller, return the error text on failure, else build the sample from
`float64(value)` (with no label value, as the source does) and send it. -/
def readAndSend (env : Env) (controller : Str) (controllerNumber : List Str) (name : Str)
    (desc : Desc) (sent : List Metric) : Except Outcome (List Metric) :=
  match env.readUintFromFile (pathJoin controller name) with
  | .error err => .error ⟨.returned (some (readErrorText name controllerNumber err)), sent⟩
  | .ok value => sendConstMetric sent desc .CounterValue (float64OfUint64 value : Int) []

/-- The inner loop over the csrow paths of one controller. -/
def csrowLoop (controller : Str) (sent : List Metric) : List Str → Except Outcome Unit
  | [] => .ok ()
  | csrow :: rest =>
    match FindStringSubmatch edacMemCsrowRE csrow with
    | none => .error ⟨.returned (some (noMatchErrorText controller)), sent⟩
    | some _ => csrowLoop controller sent rest

/-- The body of the loop over the controllers. -/
def controllerBody (c : edacCollector) (env : Env) (controller : Str) (sent : List Metric) :
    Except Outcome (List Metric) :=
  match FindStringSubmatch edacMemControllerRE controller with
  | none => .error ⟨.returned (some (noMatchErrorText controller)), sent⟩
  | some controllerNumber =>
    match readAndSend env controller controllerNumber "ce_count".toList c.ceCount sent with
    | .error o => .error o
    | .ok sent1 =>
    match readAndSend env controller controllerNumber "ce_noinfo_count".toList
        c.ceNoinfoCount sent1 with
    | .error o => .error o
    | .ok sent2 =>
    match readAndSend env controller controllerNumber "ue_count".toList c.ueCount sent2 with
    | .error o => .error o
    | .ok sent3 =>
    match readAndSend env controller controllerNumber "ue_noinfo_count".toList
        c.ueNoinfoCount sent3 with
    | .error o => .error o
    | .ok sent4 =>
    match Glob env (controller ++ "csrow[0-9]*".toList) with
    | .error err => .error ⟨.returned (some err), sent4⟩
    | .ok csrows =>
      match csrowLoop controller sent4 csrows with
      | .error o => .error o
      | .ok () => .ok sent4

/-- The loop over the discovered controllers; after the last one `Update` returns the
(nil) error of the discovery. -/
def controllerLoop (c : edacCollector) (env : Env) : List Str → List Metric → Outcome
  | [], sent => ⟨.returned none, sent⟩
  | controller :: rest, sent =>
    match controllerBody c env controller sent with
    | .error o => o
    | .ok sent' => controllerLoop c env rest sent'

/-- The glob pattern of the controller discovery. -/
def controllerPattern (env : Env) : Str :=
  sysFilePath env "devices/system/edac/mc/mc[0-9]*".toList

/-- The method `edacCollector.Update`. -/
def edacUpdate (c : edacCollector) (env : Env) : Outcome :=
  match Glob env (controllerPattern env) with
  | .error err => ⟨.returned (some err), []⟩
  | .ok memControllers => controllerLoop c env memControllers []

/-! ## The collector of `stat_freebsd.go` -/

/-- The type `statCollector`. -/
structure statCollector where
  btime : Desc
  deriving DecidableEq, Repr

/-- The function `NewStatCollector`. -/
def NewStatCollector : statCollector where
  btime := NewDesc (BuildFQName Namespace [] "boot_time".toList)
    "Node boot time, in unixtime.".toList []

/-- The kernel as the collector sees it. Bytes are natural numbers below 256. -/
structure KernEnv where
  /-- The function `unix.SysctlRaw`: the raw buffer of a query, or its error. -/
  SysctlRaw : Str → Except Str (List Nat)
  /-- The bytes of memory that follow the returned buffer. -/
  heap : Nat → Nat

/-- The byte at offset `i` from the address of `b[0]`. -/
def byteAt (b : List Nat) (heap : Nat → Nat) (i : Nat) : Nat :=
  (if i < b.length then b.getD i 0 else heap (i - b.length)) % 256

/-- A little-endian `int32` from four bytes. -/
def int32LE (b0 b1 b2 b3 : Nat) : Int :=
  let u := b0 + 256 * b1 + 65536 * b2 + 16777216 * b3
  if u < 2147483648 then (u : Int) else (u : Int) - 4294967296

/-- The field `sec` of the local type `timeval` (an `int32` at offset 0), read through
the pointer to `b[0]` on a little-endian machine. -/
def timevalSec (b : List Nat) (heap : Nat → Nat) : Int :=
  int32LE (byteAt b heap 0) (byteAt b heap 1) (byteAt b heap 2) (byteAt b heap 3)

/-- The method `statCollector.Update`. -/
def statUpdate (s : statCollector) (env : KernEnv) : Outcome :=
  match env.SysctlRaw "kern.boottime".toList with
  | .error err => ⟨.returned (some err), []⟩
  | .ok b =>
    if b = [] then ⟨.panicked "index out of range".toList, []⟩
    else
      match sendConstMetric [] s.btime .GaugeValue (timevalSec b env.heap) [] with
      | .error o => o
      | .ok sent => ⟨.returned none, sent⟩

/-- The eight bytes of a 64-bit two's-complement integer, least significant first. -/
def int64BytesLE (v : Int) : List Nat :=
  let u := (v % 18446744073709551616).toNat
  (List.range 8).map fun i => u / 256 ^ i % 256

/-- Modelled from the spec: the boot-time record of the kernel on a 64-bit little-endian
platform, a 64-bit seconds field at offset 0 followed by a 64-bit microseconds field. -/
def kernelTimeval64 (sec usec : Int) : List Nat :=
  int64BytesLE sec ++ int64BytesLE usec

/-! ## Concrete environments -/

/-- The directory of the memory controllers below a sysfs mount point. -/
def mcDir (sys : Str) : Str := sys ++ "/devices/system/edac/mc".toList

/-- A file system with the given entries in the controller directory and the given
readable counter files; every other read fails. -/
def mkEnv (sys : Str) (entries : List Str) (files : List (Str × Nat)) : Env where
  sysPath := sys
  readdir := fun d => if d = mcDir sys then some entries else none
  lstat := fun _ => false
  readUintFromFile := fun f =>
    match files.lookup f with
    | some v => .ok v
    | none => .error ("open ".toList ++ f ++ ": no such file or directory".toList)

/-- A kernel whose boot-time query returns the given buffer. -/
def mkKern (b : List Nat) : KernEnv where
  SysctlRaw := fun _ => .ok b
  heap := fun _ => 0

/-- A kernel whose boot-time query fails. -/
def failKern (err : Str) : KernEnv where
  SysctlRaw := fun _ => .error err
  heap := fun _ => 0

/-- A file system given by its directories (path and entry names) and its readable
counter files; every other read fails. -/
def mkEnvTree (sys : Str) (dirs : List (Str × List Str)) (files : List (Str × Nat)) : Env where
  sysPath := sys
  readdir := fun d => dirs.lookup d
  lstat := fun _ => false
  readUintFromFile := fun f =>
    match files.lookup f with
    | some v => .ok v
    | none => .error ("open ".toList ++ f ++ ": no such file or directory".toList)

/-- The path of controller `mc0` below `/sys`. -/
def mc0 : Str := "/sys/devices/system/edac/mc/mc0".toList

/-- The path of controller `mc1` below `/sys`. -/
def mc1 : Str := "/sys/devices/system/edac/mc/mc1".toList

/-- One controller `mc0` none of whose counter files exists. -/
def envNoFiles : Env := mkEnv "/sys".toList ["mc0".toList] []

/-- One controller `mc0` with a readable `ce_count` and no other counter file. -/
def envCeOnly : Env := mkEnv "/sys".toList ["mc0".toList] [(mc0 ++ "/ce_count".toList, 5)]

/-- One controller `mc0` whose four counter files are readable. -/
def envOneController : Env :=
  mkEnv "/sys".toList ["mc0".toList]
    [(mc0 ++ "/ce_count".toList, 5), (mc0 ++ "/ce_noinfo_count".toList, 0),
     (mc0 ++ "/ue_count".toList, 0), (mc0 ++ "/ue_noinfo_count".toList, 0)]

/-- The scenario of two controllers `mc0` and `mc1` with all counter files readable. -/
def envTwoControllers : Env :=
  mkEnv "/sys".toList ["mc0".toList, "mc1".toList]
    [(mc0 ++ "/ce_count".toList, 5), (mc0 ++ "/ce_noinfo_count".toList, 0),
     (mc0 ++ "/ue_count".toList, 0), (mc0 ++ "/ue_noinfo_count".toList, 0),
     (mc1 ++ "/ce_count".toList, 10), (mc1 ++ "/ce_noinfo_count".toList, 1),
     (mc1 ++ "/ue_count".toList, 0), (mc1 ++ "/ue_noinfo_count".toList, 0)]

/-- A controller directory without entries. -/
def envNoController : Env := mkEnv "/sys".toList [] []

/-- Controller `mc0` with a child directory `csrow0`. -/
def envCsrowChild : Env :=
  mkEnvTree "/sys".toList
    [(mcDir "/sys".toList, ["mc0".toList]), (mc0, ["csrow0".toList, "ce_count".toList])] []

/-- Controller `mc0` with a sibling entry `mc0csrow0` in the controller directory. -/
def envCsrowSibling : Env :=
  mkEnvTree "/sys".toList [(mcDir "/sys".toList, ["mc0".toList, "mc0csrow0".toList])] []

/-- Two entries `mc0` and `mc0x` in the controller directory. -/
def envSameDigits : Env := mkEnv "/sys".toList ["mc0".toList, "mc0x".toList] []

/-- A sysfs root whose path holds a newline after the text `devices/system/edac/mc/mc7`,
with one controller `mc3`. -/
def envNewlineRoot : Env :=
  mkEnv "/tmp/devices/system/edac/mc/mc7\nx".toList ["mc3".toList] []

/-- A collector value whose four controller descriptors declare no variable label (not
the value built by `NewEdacCollector`): with it the samples built by `Update` are accepted,
which shows the control flow of `Update` apart from the label-cardinality check. -/
def unlabelledCollector : edacCollector :=
  { NewEdacCollector with
    ceCount := { NewEdacCollector.ceCount with variableLabels := [] }
    ceNoinfoCount := { NewEdacCollector.ceNoinfoCount with variableLabels := [] }
    ueCount := { NewEdacCollector.ueCount with variableLabels := [] }
    ueNoinfoCount := { NewEdacCollector.ueNoinfoCount with variableLabels := [] } }

/-- Controller `mc0` with readable counter files and a sibling entry `mc0csrow0`. -/
def envCsrowSiblingReadable : Env :=
  mkEnvTree "/sys".toList [(mcDir "/sys".toList, ["mc0".toList, "mc0csrow0".toList])]
    [(mc0 ++ "/ce_count".toList, 5), (mc0 ++ "/ce_noinfo_count".toList, 0),
     (mc0 ++ "/ue_count".toList, 0), (mc0 ++ "/ue_noinfo_count".toList, 0)]

/-- Whether a string occurs inside another one. -/
def Occurs (sub msg : Str) : Prop := ∃ a b, msg = a ++ sub ++ b

/-- The items of the last element `mc[0-9]*` of the controller pattern. -/
def controllerItems : List GlobItem :=
  [.lit 'm', .lit 'c', .cls false [('0', '9')], .star]

/-- The four counter files read for each controller, in the order of the source. -/
def counterNames : List Str :=
  ["ce_count".toList, "ce_noinfo_count".toList, "ue_count".toList, "ue_noinfo_count".toList]

/-- What an error returned from the loop body for controller `p` can be: the read-error
text of one of its four counter files whose read failed, the mismatch text, or the error
of the csrow glob. -/
def BodyError (env : Env) (p msg : Str) : Prop :=
  (∃ k ∈ counterNames, ∃ cn err, FindStringSubmatch edacMemControllerRE p = some cn
      ∧ env.readUintFromFile (pathJoin p k) = .error err ∧ msg = readErrorText k cn err)
    ∨ msg = noMatchErrorText p
    ∨ Glob env (p ++ "csrow[0-9]*".toList) = .error msg

/-- The four read-and-send blocks of the loop body, in the order of the source: the
counter file that is read and the descriptor of the sample that is sent. -/
def counterBlocks (c : edacCollector) : List (Str × Desc) :=
  [("ce_count".toList, c.ceCount), ("ce_noinfo_count".toList, c.ceNoinfoCount),
   ("ue_count".toList, c.ueCount), ("ue_noinfo_count".toList, c.ueNoinfoCount)]

/-- The iteration of the loop for controller `q` runs to its end: the path is matched, the
four counter files are read and their samples accepted, and the csrow walk finds only
paths that the csrow expression matches. -/
def IterationCompletes (c : edacCollector) (env : Env) (q : Str) : Prop :=
  (FindStringSubmatch edacMemControllerRE q).isSome
    ∧ (∀ kd ∈ counterBlocks c,
        (∃ v, env.readUintFromFile (pathJoin q kd.1) = .ok v) ∧ kd.2.variableLabels = [])
    ∧ ∃ csrows, Glob env (q ++ "csrow[0-9]*".toList) = .ok csrows
        ∧ ∀ r ∈ csrows, (FindStringSubmatch edacMemCsrowRE r).isSome

/-- Controller `mc0` fully readable, controller `mc1` without a `ue_count` file. -/
def envSecondUeMissing : Env :=
  mkEnv "/sys".toList ["mc0".toList, "mc1".toList]
    [(mc0 ++ "/ce_count".toList, 5), (mc0 ++ "/ce_noinfo_count".toList, 0),
     (mc0 ++ "/ue_count".toList, 0), (mc0 ++ "/ue_noinfo_count".toList, 0),
     (mc1 ++ "/ce_count".toList, 10), (mc1 ++ "/ce_noinfo_count".toList, 1)]

/-! ## Theorems -/

/-! ### The greedy star -/

/-- The star succeeds as soon as the continuation succeeds on the empty run. -/
theorem starGo_isSome {R : Type} (p : Char → Bool) (k : Str → Str → Option R) (acc s : Str)
    (h : (k acc s).isSome) : (starGo p k acc s).isSome := by
  cases s with
  | nil => simpa [starGo] using h
  | cons c cs =>
    unfold starGo
    split
    · cases hgo : starGo p k (acc ++ [c]) cs with
      | some r => simp
      | none => simpa using h
    · exact h

/-- When the continuation fails after every non-empty run, the star hands over the empty
run. -/
theorem starGo_eq_of_later_fail {R : Type} (p : Char → Bool) (k : Str → Str → Option R) :
    ∀ (s acc : Str), (∀ u v, u ≠ [] → s = u ++ v → k (acc ++ u) v = none) →
      starGo p k acc s = k acc s
  | [], _, _ => by simp [starGo]
  | c :: cs, acc, h => by
    have ih := starGo_eq_of_later_fail p k cs (acc ++ [c]) (by
      intro u v hu hs
      have := h (c :: u) v (by simp) (by simp [hs])
      simpa using this)
    have hc : k (acc ++ [c]) cs = none := h [c] cs (by simp) (by simp)
    unfold starGo
    split
    · rw [ih, hc]
    · rfl

/-- The star consumes a run `u` of class characters when the continuation succeeds after
`u` and fails after every longer run. -/
theorem starGo_skip {R : Type} (p : Char → Bool) (k : Str → Str → Option R) (v : Str) (r : R) :
    ∀ (u acc : Str), (∀ c ∈ u, p c = true) →
      (∀ u' v', u' ≠ [] → v = u' ++ v' → k (acc ++ u ++ u') v' = none) →
      k (acc ++ u) v = some r → starGo p k acc (u ++ v) = some r
  | [], acc, _, hlater, hk => by
    have := starGo_eq_of_later_fail p k v acc (by
      intro u' v' hu hv
      simpa using hlater u' v' hu hv)
    simpa [this] using hk
  | c :: u, acc, hp, hlater, hk => by
    have ih := starGo_skip p k v r u (acc ++ [c]) (fun x hx => hp x (by simp [hx]))
      (by
        intro u' v' hu hv
        have := hlater u' v' hu hv
        simpa using this)
      (by simpa using hk)
    have hc : p c = true := hp c (by simp)
    show starGo p k acc (c :: (u ++ v)) = some r
    unfold starGo
    simp [hc, ih]

/-- The star consumes a whole input of class characters when the continuation accepts
that. -/
theorem starGo_all {R : Type} (p : Char → Bool) (k : Str → Str → Option R) (s acc : Str)
    (r : R) (hp : ∀ c ∈ s, p c = true) (hk : k (acc ++ s) [] = some r) :
    starGo p k acc s = some r := by
  have := starGo_skip p k [] r s acc hp
    (by
      intro u' v' hu hv
      have : u' = [] := by
        have h := congrArg List.length hv
        simp at h
        exact List.length_eq_zero.mp (by omega)
      exact absurd this hu)
    hk
  simpa using this

/-! ### Literal items -/

/-- Literal items consume exactly their string. -/
theorem matchItems_lits_append (rest : List RxItem) :
    ∀ (l s : Str), matchItems (rxLits l ++ rest) (l ++ s) = matchItems rest s
  | [], s => by simp [rxLits]
  | c :: l, s => by
    have ih := matchItems_lits_append rest l s
    simp only [rxLits, List.map_cons, List.cons_append] at ih ⊢
    simp [matchItems, ih]

/-- Literal items only match an input that starts with their string. -/
theorem matchItems_lits_some (rest : List RxItem) :
    ∀ (l s : Str) (r : List Str × Str), matchItems (rxLits l ++ rest) s = some r →
      ∃ t, s = l ++ t
  | [], s, _, _ => ⟨s, by simp⟩
  | c :: l, [], r, h => by simp [rxLits, matchItems] at h
  | c :: l, d :: s, r, h => by
    simp only [rxLits, List.map_cons, List.cons_append, matchItems] at h
    by_cases hcd : c = d
    · simp only [hcd, if_true] at h
      obtain ⟨t, ht⟩ := matchItems_lits_some rest l s r (by simpa [rxLits] using h)
      exact ⟨t, by simp [hcd, ht]⟩
    · simp [hcd] at h

/-! ### Leftmost match -/

/-- A match at the start of the input is the result of the search. -/
theorem FindStringSubmatch_of_match (re : List RxItem) (s : Str) (caps : List Str) (r : Str)
    (h : matchItems re s = some (caps, r)) :
    FindStringSubmatch re s = some (s.take (s.length - r.length) :: caps) := by
  cases s with
  | nil => simp [FindStringSubmatch, h]
  | cons c t => simp only [FindStringSubmatch, h]

/-- A match at some offset makes the search succeed. -/
theorem FindStringSubmatch_isSome (re : List RxItem) (s : Str)
    (h : (matchItems re s).isSome) :
    ∀ pre : Str, (FindStringSubmatch re (pre ++ s)).isSome
  | [] => by
    obtain ⟨⟨caps, r⟩, hr⟩ := Option.isSome_iff_exists.mp h
    simp [FindStringSubmatch_of_match re s caps r hr]
  | c :: pre => by
    have ih := FindStringSubmatch_isSome re s h pre
    show (FindStringSubmatch re (c :: (pre ++ s))).isSome
    unfold FindStringSubmatch
    cases hm : matchItems re (c :: (pre ++ s)) with
    | some r => simp
    | none => simpa using ih

/-! ### The controller expression -/

/-- The literal part of `edacMemControllerRE`. -/
theorem edacMemControllerRE_eq :
    edacMemControllerRE
      = .star .dot false
          :: (rxLits ("devices/system/edac/mc".toList ++ '/' :: "mc".toList)
            ++ [.star .digit true]) := by
  decide

/-- The final group `([0-9]*)` always matches. -/
theorem matchItems_digits_isSome (s : Str) :
    (matchItems [.star .digit true] s).isSome := by
  unfold matchItems
  apply starGo_isSome
  simp [matchItems]

/-- The final group `([0-9]*)` captures an input made of digits as a whole. -/
theorem matchItems_digits (d : Str) (hd : ∀ c ∈ d, RxClass.digit.test c = true) :
    matchItems [.star .digit true] d = some ([d], []) := by
  unfold matchItems
  apply starGo_all _ _ _ _ _ hd
  simp [matchItems]

/-- Two strings that agree up to their last separator have the same last element. -/
theorem last_element_unique :
    ∀ (a b x y : Str), '/' ∉ x → '/' ∉ y → a ++ '/' :: x = b ++ '/' :: y → x = y
  | [], [], _, _, _, _, h => by simpa using h
  | [], c :: b, x, y, hx, _, h => by
    simp only [List.nil_append, List.cons_append, List.cons.injEq] at h
    exact absurd (h.2 ▸ (by simp : '/' ∈ b ++ '/' :: y)) hx
  | c :: a, [], x, y, _, hy, h => by
    simp only [List.nil_append, List.cons_append, List.cons.injEq] at h
    exact absurd (h.2 ▸ (by simp : '/' ∈ a ++ '/' :: x)) hy
  | c :: a, e :: b, x, y, hx, hy, h => by
    simp only [List.cons_append, List.cons.injEq] at h
    exact last_element_unique a b x y hx hy h.2

/-- The literal `devices/system/edac/mc/mc` does not occur a second time, further to the
right, in a path that ends with it and a last element free of separators. -/
theorem literal_not_later (u v t d : Str) (hu : u ≠ []) (hd : '/' ∉ d)
    (h : "devices/system/edac/mc".toList ++ '/' :: ("mc".toList ++ d) = u ++ v)
    (hv : v = "devices/system/edac/mc".toList ++ '/' :: ("mc".toList ++ t)) : False := by
  subst hv
  have hlen := congrArg List.length h
  simp only [List.length_append, List.length_cons] at hlen
  have ht : t.length < d.length := by
    have : 0 < u.length := List.length_pos.mpr hu
    omega
  -- `t` is a final segment of `d`
  have hsuf : ∃ a, d = a ++ t := by
    refine ⟨d.take (d.length - t.length), ?_⟩
    have h1 := congrArg (List.drop (("devices/system/edac/mc".toList ++ '/' :: ("mc".toList ++ d)).length - t.length)) h
    have e1 : (("devices/system/edac/mc".toList ++ '/' :: ("mc".toList ++ d)).length - t.length)
        = ("devices/system/edac/mc".toList ++ '/' :: "mc".toList).length
          + (d.length - t.length) := by
      simp only [List.length_append, List.length_cons]; omega
    have e2 : (("devices/system/edac/mc".toList ++ '/' :: ("mc".toList ++ d)).length - t.length)
        = (u ++ ("devices/system/edac/mc".toList ++ '/' :: "mc".toList)).length := by
      simp only [List.length_append, List.length_cons] at hlen ⊢; omega
    have l1 : "devices/system/edac/mc".toList ++ '/' :: ("mc".toList ++ d)
        = ("devices/system/edac/mc".toList ++ '/' :: "mc".toList) ++ d := by simp
    have l2 : u ++ ("devices/system/edac/mc".toList ++ '/' :: ("mc".toList ++ t))
        = (u ++ ("devices/system/edac/mc".toList ++ '/' :: "mc".toList)) ++ t := by simp
    have d1 : List.drop (("devices/system/edac/mc".toList ++ '/' :: ("mc".toList ++ d)).length - t.length)
        ("devices/system/edac/mc".toList ++ '/' :: ("mc".toList ++ d)) = d.drop (d.length - t.length) := by
      rw [e1, l1, List.drop_append]
    have d2 : List.drop (("devices/system/edac/mc".toList ++ '/' :: ("mc".toList ++ d)).length - t.length)
        (u ++ ("devices/system/edac/mc".toList ++ '/' :: ("mc".toList ++ t))) = t := by
      rw [e2, l2, List.drop_left]
    rw [d1, d2] at h1
    conv_lhs => rw [← List.take_append_drop (d.length - t.length) d]
    rw [h1]
  obtain ⟨a, ha⟩ := hsuf
  have htd : '/' ∉ t := fun hmem => hd (by rw [ha]; simp [hmem])
  have hx : '/' ∉ "mc".toList ++ d := by
    intro hmem
    rcases List.mem_append.mp hmem with h' | h'
    · exact absurd h' (by decide)
    · exact hd h'
  have hy : '/' ∉ "mc".toList ++ t := by
    intro hmem
    rcases List.mem_append.mp hmem with h' | h'
    · exact absurd h' (by decide)
    · exact htd h'
  have key := last_element_unique "devices/system/edac/mc".toList
    (u ++ "devices/system/edac/mc".toList) ("mc".toList ++ d) ("mc".toList ++ t) hx hy
    (by simpa using h)
  have := congrArg List.length key
  simp only [List.length_append] at this
  omega

/-- For a path `<pre>devices/system/edac/mc/mc<d>` with a digit string `d` and no newline
in `pre`, the expression matches the whole path and captures `d`. -/
theorem controller_submatch (pre d : Str) (hpre : ∀ c ∈ pre, c ≠ '\n')
    (hd : ∀ c ∈ d, '0' ≤ c ∧ c ≤ '9') :
    FindStringSubmatch edacMemControllerRE
        (pre ++ ("devices/system/edac/mc".toList ++ '/' :: ("mc".toList ++ d)))
      = some [pre ++ ("devices/system/edac/mc".toList ++ '/' :: ("mc".toList ++ d)), d] := by
  have hdig : ∀ c ∈ d, RxClass.digit.test c = true := by
    intro c hc
    simp [RxClass.test, hd c hc]
  have hslash : '/' ∉ d := by
    intro hmem
    have := hd '/' hmem
    exact absurd this.1 (by decide)
  have hlit : ∀ t : Str,
      "devices/system/edac/mc".toList ++ '/' :: ("mc".toList ++ t)
        = ("devices/system/edac/mc".toList ++ '/' :: "mc".toList) ++ t := by
    intro t; simp
  have hm : matchItems edacMemControllerRE
      (pre ++ ("devices/system/edac/mc".toList ++ '/' :: ("mc".toList ++ d)))
      = some ([d], []) := by
    rw [edacMemControllerRE_eq]
    unfold matchItems
    apply starGo_skip
    · intro c hc
      simp [RxClass.test, hpre c hc]
    · intro u' v' hu hv
      cases hv' : matchItems
          (rxLits ("devices/system/edac/mc".toList ++ '/' :: "mc".toList)
            ++ [.star .digit true]) v' with
      | none => simp
      | some r =>
        obtain ⟨t, ht⟩ := matchItems_lits_some _ _ _ _ hv'
        exact (literal_not_later u' v' t d hu hslash hv (by rw [ht, hlit])).elim
    · rw [hlit, matchItems_lits_append, matchItems_digits d hdig]
      simp
  rw [FindStringSubmatch_of_match _ _ _ _ hm]
  simp

/-- Every path that ends with `devices/system/edac/mc/mc` and any further characters is
matched by the controller expression. -/
theorem controller_match_isSome (pre rest : Str) :
    (FindStringSubmatch edacMemControllerRE
      (pre ++ ("devices/system/edac/mc".toList ++ '/' :: ("mc".toList ++ rest)))).isSome := by
  apply FindStringSubmatch_isSome
  rw [edacMemControllerRE_eq]
  unfold matchItems
  apply starGo_isSome
  have hlit : "devices/system/edac/mc".toList ++ '/' :: ("mc".toList ++ rest)
      = ("devices/system/edac/mc".toList ++ '/' :: "mc".toList) ++ rest := by simp
  rw [hlit, matchItems_lits_append]
  obtain ⟨r, hr⟩ := Option.isSome_iff_exists.mp (matchItems_digits_isSome rest)
  simp [hr]

/-- The last element of the controller pattern parses to `controllerItems`. -/
theorem parsePattern_controller :
    parsePattern ("mc[0-9]*".toList.length + 1) "mc[0-9]*".toList = some controllerItems := by
  decide

/-- A name matched by `mc[0-9]*` starts with `mc` and a digit. -/
theorem controllerItems_match (name : Str) (h : matchGlobItems controllerItems name = true) :
    ∃ c rest, name = 'm' :: 'c' :: c :: rest ∧ '0' ≤ c ∧ c ≤ '9' := by
  match name, h with
  | [], h => simp [controllerItems, matchGlobItems] at h
  | [_], h => simp [controllerItems, matchGlobItems] at h
  | [_, _], h => simp [controllerItems, matchGlobItems] at h
  | a :: b :: c :: rest, h =>
    simp only [controllerItems, matchGlobItems, inRanges, List.any_cons, List.any_nil,
      Bool.or_false, Bool.and_eq_true, beq_iff_eq, bne_iff_ne, ne_eq, decide_eq_true_eq,
      Bool.not_eq_true] at h
    obtain ⟨ha, hb, hc, -⟩ := h
    refine ⟨c, rest, by rw [← ha, ← hb], ?_⟩
    by_cases h0 : '0' ≤ c
    · by_cases h9 : c ≤ '9'
      · exact ⟨h0, h9⟩
      · simp [h0, h9] at hc
    · simp [h0] at hc

/-! ### Discovery -/

/-- Splitting a reversed path whose last element `u` has no separator. -/
theorem splitRev_spec (R : Str) :
    ∀ (u file : Str), '/' ∉ u → splitRev file (u ++ '/' :: R) = (u.reverse ++ file, '/' :: R)
  | [], file, _ => by simp [splitRev]
  | c :: u, file, h => by
    have hc : c ≠ '/' := fun e => h (by simp [e])
    have hu : '/' ∉ u := fun e => h (by simp [e])
    have ih := splitRev_spec R u (c :: file) hu
    simp [splitRev, hc, ih]

/-- The function `Split` cuts after the last separator. -/
theorem Split_append (A w : Str) (hw : '/' ∉ w) : Split (A ++ '/' :: w) = (A ++ ['/'], w) := by
  have hrev : (A ++ '/' :: w).reverse = w.reverse ++ '/' :: A.reverse := by simp
  have hw' : '/' ∉ w.reverse := by simpa using hw
  simp [Split, hrev, splitRev_spec A.reverse w.reverse [] hw']

/-- The directory part of a pattern `A/w`, cleaned. -/
theorem cleanGlobPath_append (A : Str) (hA : A ≠ []) : cleanGlobPath (A ++ ['/']) = A := by
  unfold cleanGlobPath
  have h1 : A ++ ['/'] ≠ [] := by simp
  have h2 : A ++ ['/'] ≠ "/".toList := by
    intro h
    have := congrArg List.length h
    simp at this
    exact hA this
  rw [if_neg h1, if_neg h2]
  simp

/-- Metacharacters of a concatenation. -/
theorem hasMeta_append (a b : Str) : hasMeta (a ++ b) = (hasMeta a || hasMeta b) := by
  simp [hasMeta, List.any_append]

/-- Joining a directory of at least two characters and a name. -/
theorem pathJoin_long (d n : Str) (h : 2 ≤ d.length) : pathJoin d n = d ++ '/' :: n := by
  unfold pathJoin
  have h1 : ¬ (d = [] ∨ d = ".".toList) := by
    rintro (e | e) <;> (rw [e] at h; simp at h)
  have h2 : d ≠ "/".toList := by
    intro e; rw [e] at h; simp at h
  rw [if_neg h1, if_neg h2]

/-- Literal pattern items match only their own string. -/
theorem matchGlobItems_lits :
    ∀ (w n : Str), matchGlobItems (w.map GlobItem.lit) n = true → n = w
  | [], [], _ => rfl
  | [], _ :: _, h => by simp [matchGlobItems] at h
  | _ :: _, [], h => by simp [matchGlobItems] at h
  | c :: w, d :: n, h => by
    simp only [List.map_cons, matchGlobItems, Bool.and_eq_true, beq_iff_eq] at h
    rw [h.1, matchGlobItems_lits w n h.2]

/-- The paths found by `glob` are the earlier ones and the joined matching entries. -/
theorem glob_mem (env : Env) (dir pat : Str) (found m : List Str)
    (h : glob env dir pat found = .ok m) (x : Str) (hx : x ∈ m) :
    x ∈ found ∨ ∃ n items, parsePattern (pat.length + 1) pat = some items
      ∧ matchGlobItems items n = true ∧ x = pathJoin dir n := by
  unfold glob at h
  cases hr : env.readdir dir with
  | none =>
    rw [hr] at h
    simp only [Except.ok.injEq] at h
    exact Or.inl (h ▸ hx)
  | some names =>
    rw [hr] at h
    simp only at h
    cases hs : sortStrings names with
    | nil =>
      rw [hs] at h
      simp only [Except.ok.injEq] at h
      exact Or.inl (h ▸ hx)
    | cons n ns =>
      rw [hs] at h
      simp only at h
      cases hp : parsePattern (pat.length + 1) pat with
      | none => rw [hp] at h; cases h
      | some items =>
        rw [hp] at h
        simp only [Except.ok.injEq] at h
        rw [← h] at hx
        rcases List.mem_append.mp hx with h1 | h1
        · exact Or.inl h1
        · obtain ⟨e, he, hxe⟩ := List.mem_map.mp h1
          exact Or.inr ⟨e, items, rfl, (List.mem_filter.mp he).2, hxe.symm⟩

/-- The paths found by `globAll`. -/
theorem globAll_mem (env : Env) (pat : Str) :
    ∀ (ds found m : List Str), globAll env pat ds found = .ok m → ∀ x ∈ m,
      x ∈ found ∨ ∃ d ∈ ds, ∃ n items, parsePattern (pat.length + 1) pat = some items
        ∧ matchGlobItems items n = true ∧ x = pathJoin d n
  | [], found, m, h, x, hx => by
    simp only [globAll, Except.ok.injEq] at h
    exact Or.inl (h ▸ hx)
  | d :: ds, found, m, h, x, hx => by
    unfold globAll at h
    cases hg : glob env d pat found with
    | error e => rw [hg] at h; cases h
    | ok m' =>
      rw [hg] at h
      simp only at h
      rcases globAll_mem env pat ds m' m h x hx with h1 | ⟨d', hd', n, items, hp, hm, hxe⟩
      · rcases glob_mem env d pat found m' hg x h1 with h2 | ⟨n, items, hp, hm, hxe⟩
        · exact Or.inl h2
        · exact Or.inr ⟨d, by simp, n, items, hp, hm, hxe⟩
      · exact Or.inr ⟨d', by simp [hd'], n, items, hp, hm, hxe⟩

/-- One level of `filepath.Glob` on a pattern `D/w` with metacharacters: every path found
is a directory found for `D` (or `D` itself, when it has no metacharacter) joined with an
entry that matches `w`. -/
theorem GlobFuel_step (env : Env) (Ψ : Str → Prop) (D w : Str) (fuel : Nat) (hw : '/' ∉ w)
    (hD : D ≠ []) (hmeta : hasMeta (D ++ '/' :: w) = true)
    (hrec : hasMeta D = true → ∀ m', GlobFuel env fuel D = .ok m' → ∀ d ∈ m', Ψ d)
    (hbase : hasMeta D = false → Ψ D)
    (m : List Str) (h : GlobFuel env (fuel + 1) (D ++ '/' :: w) = .ok m) :
    ∀ x ∈ m, ∃ d n items, Ψ d ∧ parsePattern (w.length + 1) w = some items
      ∧ matchGlobItems items n = true ∧ x = pathJoin d n := by
  intro x hx
  unfold GlobFuel at h
  simp only [hmeta, Bool.not_true, Bool.false_eq_true, if_false, Split_append D w hw,
    cleanGlobPath_append D hD] at h
  by_cases hm : hasMeta D = true
  · have hne : D ≠ D ++ '/' :: w := by
      intro e
      have := congrArg List.length e
      simp at this
    simp only [hm, Bool.not_true, Bool.false_eq_true, if_false, hne] at h
    cases hg : GlobFuel env fuel D with
    | error e => rw [hg] at h; cases h
    | ok m' =>
      rw [hg] at h
      simp only at h
      rcases globAll_mem env w m' [] m h x hx with h1 | ⟨d, hd, n, items, hp, hmt, hxe⟩
      · cases h1
      · exact ⟨d, n, items, hrec hm m' hg d hd, hp, hmt, hxe⟩
  · have hm' : hasMeta D = false := by simpa using hm
    simp only [hm', Bool.not_false, if_true] at h
    rcases glob_mem env D w [] m h x hx with h1 | ⟨n, items, hp, hmt, hxe⟩
    · cases h1
    · exact ⟨D, n, items, hbase hm', hp, hmt, hxe⟩

/-- Below a sysfs root with metacharacters, every directory found for `<root>/devices`
ends with `devices`. -/
theorem GlobFuel_devices (env : Env) (hsys : hasMeta env.sysPath = true) :
    ∀ (fuel : Nat) (m : List Str),
      GlobFuel env fuel (env.sysPath ++ '/' :: "devices".toList) = .ok m →
      ∀ d ∈ m, ∃ Q, d = Q ++ "devices".toList
  | 0, m, h, _, _ => by simp [GlobFuel] at h
  | fuel + 1, m, h, x, hx => by
    have hne : env.sysPath ≠ [] := by
      intro e; rw [e] at hsys; simp [hasMeta] at hsys
    obtain ⟨d, n, items, -, hp, hm, hxe⟩ :=
      GlobFuel_step env (fun _ => True) env.sysPath "devices".toList fuel (by decide) hne
        (by rw [hasMeta_append, hsys]; rfl) (fun _ _ _ _ _ => trivial) (fun _ => trivial)
        m h x hx
    have hitems : items = "devices".toList.map GlobItem.lit := by
      have : parsePattern ("devices".toList.length + 1) "devices".toList
          = some ("devices".toList.map GlobItem.lit) := by decide
      rw [this] at hp
      exact (Option.some.inj hp).symm
    have hn : n = "devices".toList := matchGlobItems_lits _ _ (hitems ▸ hm)
    rw [hxe, hn]
    unfold pathJoin
    split
    · exact ⟨[], rfl⟩
    · split
      · exact ⟨['/'], rfl⟩
      · exact ⟨d ++ ['/'], by simp⟩

/-- One more literal element: if every directory found for `<root>/T` ends with `T`, every
directory found for `<root>/T/w` ends with `T/w`. -/
theorem GlobFuel_literal (env : Env) (hsys : hasMeta env.sysPath = true) (T w : Str)
    (hT : 2 ≤ T.length) (hw : '/' ∉ w)
    (hparse : parsePattern (w.length + 1) w = some (w.map GlobItem.lit))
    (ih : ∀ (fuel : Nat) (m : List Str), GlobFuel env fuel (env.sysPath ++ '/' :: T) = .ok m →
      ∀ d ∈ m, ∃ Q, d = Q ++ T) :
    ∀ (fuel : Nat) (m : List Str),
      GlobFuel env fuel (env.sysPath ++ '/' :: (T ++ '/' :: w)) = .ok m →
      ∀ d ∈ m, ∃ Q, d = Q ++ (T ++ '/' :: w)
  | 0, m, h, _, _ => by simp [GlobFuel] at h
  | fuel + 1, m, h, x, hx => by
    have hpat : env.sysPath ++ '/' :: (T ++ '/' :: w) = (env.sysPath ++ '/' :: T) ++ '/' :: w := by
      simp
    rw [hpat] at h
    obtain ⟨d, n, items, ⟨Q, hQ⟩, hp, hm, hxe⟩ :=
      GlobFuel_step env (fun d => ∃ Q, d = Q ++ T) (env.sysPath ++ '/' :: T) w fuel hw
        (by simp) (by rw [hasMeta_append, hasMeta_append, hsys]; rfl)
        (fun _ m' hm' d hd => ih fuel m' hm' d hd)
        (fun hf => by rw [hasMeta_append, hsys] at hf; cases hf)
        m h x hx
    rw [hparse] at hp
    have hn : n = w := matchGlobItems_lits _ _ ((Option.some.inj hp) ▸ hm)
    have hlen : 2 ≤ d.length := by rw [hQ]; simp; omega
    rw [hxe, hn, pathJoin_long d w hlen, hQ]
    exact ⟨Q, by simp⟩

/-- Below a sysfs root with metacharacters, every directory found for the controller
directory ends with `devices/system/edac/mc`. -/
theorem GlobFuel_mc (env : Env) (hsys : hasMeta env.sysPath = true) (fuel : Nat)
    (m : List Str)
    (h : GlobFuel env fuel (env.sysPath ++ '/' :: "devices/system/edac/mc".toList) = .ok m) :
    ∀ d ∈ m, ∃ Q, d = Q ++ "devices/system/edac/mc".toList := by
  have h1 := GlobFuel_devices env hsys
  have h2 := GlobFuel_literal env hsys "devices".toList "system".toList (by decide) (by decide)
    (by decide) h1
  have h3 := GlobFuel_literal env hsys ("devices".toList ++ '/' :: "system".toList)
    "edac".toList (by decide) (by decide) (by decide) h2
  have h4 := GlobFuel_literal env hsys
    ("devices".toList ++ '/' :: "system".toList ++ '/' :: "edac".toList)
    "mc".toList (by decide) (by decide) (by decide) (by simpa using h3)
  exact h4 fuel m (by simpa using h)

/-- The controller pattern as a directory and the last element `mc[0-9]*`. -/
theorem controllerPattern_eq (env : Env) :
    ∃ P, controllerPattern env
        = (P ++ "devices/system/edac/mc".toList) ++ '/' :: "mc[0-9]*".toList
      ∧ (hasMeta (P ++ "devices/system/edac/mc".toList) = true →
          hasMeta env.sysPath = true ∧ P = env.sysPath ++ ['/']) := by
  unfold controllerPattern sysFilePath pathJoin
  split
  · exact ⟨[], by decide, fun h => absurd h (by decide)⟩
  · split
    · exact ⟨['/'], by decide, fun h => absurd h (by decide)⟩
    · refine ⟨env.sysPath ++ ['/'], by simp, fun h => ⟨?_, rfl⟩⟩
      rw [hasMeta_append, hasMeta_append] at h
      simpa [hasMeta] using h

/-- Every path discovered by the controller glob ends with an element matched by
`mc[0-9]*` inside a directory `devices/system/edac/mc`. -/
theorem Glob_controller_shape (env : Env) (l : List Str)
    (h : Glob env (controllerPattern env) = .ok l) :
    ∀ p ∈ l, ∃ Q name, p = Q ++ ("devices/system/edac/mc".toList ++ '/' :: name)
      ∧ matchGlobItems controllerItems name = true := by
  intro p hp
  obtain ⟨P, hpat, hmetaP⟩ := controllerPattern_eq env
  unfold Glob at h
  rw [hpat] at h
  obtain ⟨d, n, items, ⟨Q, hQ⟩, hpp, hm, hxe⟩ :=
    GlobFuel_step env (fun d => ∃ Q, d = Q ++ "devices/system/edac/mc".toList)
      (P ++ "devices/system/edac/mc".toList) "mc[0-9]*".toList _ (by decide) (by simp)
      (by rw [hasMeta_append, hasMeta_append]; simp [hasMeta])
      (fun hmeta m' hm' d hd => by
        obtain ⟨hsys, hP⟩ := hmetaP hmeta
        rw [hP] at hm'
        exact GlobFuel_mc env hsys _ m' (by simpa using hm') d hd)
      (fun _ => ⟨P, rfl⟩)
      l h p hp
  rw [parsePattern_controller] at hpp
  have hitems : items = controllerItems := (Option.some.inj hpp).symm
  have hlen : 2 ≤ d.length := by rw [hQ]; simp
  refine ⟨Q, n, ?_, hitems ▸ hm⟩
  rw [hxe, pathJoin_long d n hlen, hQ]
  simp

/-- Every path discovered by the controller glob is matched by the controller
expression. -/
theorem discovered_paths_match (env : Env) (l : List Str)
    (h : Glob env (controllerPattern env) = .ok l) :
    ∀ p ∈ l, (FindStringSubmatch edacMemControllerRE p).isSome := by
  intro p hp
  obtain ⟨Q, name, hpe, hm⟩ := Glob_controller_shape env l h p hp
  obtain ⟨c, rest, hname, -, -⟩ := controllerItems_match name hm
  rw [hpe, hname]
  exact controller_match_isSome Q (c :: rest)

/-! ### Shape of the submatch slice -/

/-- A successful star ends in a successful call of its continuation. -/
theorem starGo_some {R : Type} (p : Char → Bool) (k : Str → Str → Option R) (r : R) :
    ∀ (s acc : Str), starGo p k acc s = some r → ∃ acc' s', k acc' s' = some r
  | [], acc, h => ⟨acc, [], by simpa [starGo] using h⟩
  | c :: cs, acc, h => by
    unfold starGo at h
    split at h
    · cases hgo : starGo p k (acc ++ [c]) cs with
      | some r' =>
        rw [hgo] at h
        simp only [Option.some.injEq] at h
        exact starGo_some p k r cs (acc ++ [c]) (h ▸ hgo)
      | none =>
        rw [hgo] at h
        exact ⟨acc, c :: cs, h⟩
    · exact ⟨acc, c :: cs, h⟩

/-- Literal items hand the rest of the input to the following items. -/
theorem matchItems_lits_rest (rest : List RxItem) :
    ∀ (l s : Str) (r : List Str × Str), matchItems (rxLits l ++ rest) s = some r →
      ∃ t, matchItems rest t = some r
  | [], s, r, h => ⟨s, by simpa [rxLits] using h⟩
  | c :: l, [], r, h => by simp [rxLits, matchItems] at h
  | c :: l, d :: s, r, h => by
    simp only [rxLits, List.map_cons, List.cons_append, matchItems] at h
    by_cases hcd : c = d
    · simp only [hcd, if_true] at h
      exact matchItems_lits_rest rest l s r (by simpa [rxLits] using h)
    · simp [hcd] at h

/-- A match of the controller expression captures exactly one group. -/
theorem controller_match_caps (s : Str) (caps : List Str) (r : Str)
    (h : matchItems edacMemControllerRE s = some (caps, r)) : ∃ N, caps = [N] := by
  rw [edacMemControllerRE_eq] at h
  unfold matchItems at h
  obtain ⟨acc1, s1, h1⟩ := starGo_some _ _ _ _ _ h
  cases hm : matchItems
      (rxLits ("devices/system/edac/mc".toList ++ '/' :: "mc".toList) ++ [.star .digit true])
      s1 with
  | none => rw [hm] at h1; cases h1
  | some q =>
    obtain ⟨caps', r'⟩ := q
    rw [hm] at h1
    simp only [Bool.false_eq_true, if_false, Option.some.injEq, Prod.mk.injEq] at h1
    obtain ⟨t, ht⟩ := matchItems_lits_rest _ _ _ _ hm
    unfold matchItems at ht
    obtain ⟨acc2, s2, h2⟩ := starGo_some _ _ _ _ _ ht
    simp only [matchItems, if_true, Option.some.injEq, Prod.mk.injEq] at h2
    exact ⟨acc2, by rw [← h1.1, ← h2.1]⟩

/-- The slice returned for the controller expression holds the matched text and the
controller number. -/
theorem controller_submatch_shape :
    ∀ (s : Str) (cn : List Str), FindStringSubmatch edacMemControllerRE s = some cn →
      ∃ full N, cn = [full, N]
  | [], cn, h => by
    unfold FindStringSubmatch at h
    cases hm : matchItems edacMemControllerRE [] with
    | none => rw [hm] at h; cases h
    | some q =>
      obtain ⟨caps, r⟩ := q
      rw [hm] at h
      obtain ⟨N, hN⟩ := controller_match_caps [] caps r hm
      simp only [Option.some.injEq] at h
      exact ⟨[], N, by rw [← h, hN]⟩
  | c :: t, cn, h => by
    unfold FindStringSubmatch at h
    cases hm : matchItems edacMemControllerRE (c :: t) with
    | none =>
      rw [hm] at h
      exact controller_submatch_shape t cn h
    | some q =>
      obtain ⟨caps, r⟩ := q
      rw [hm] at h
      obtain ⟨N, hN⟩ := controller_match_caps (c :: t) caps r hm
      simp only [Option.some.injEq] at h
      exact ⟨_, N, by rw [← h, hN]⟩

/-- The read-error text names the counter and every element of the submatch slice. -/
theorem readErrorText_occurs (k full N err : Str) :
    Occurs k (readErrorText k [full, N] err) ∧ Occurs N (readErrorText k [full, N] err) := by
  constructor
  · exact ⟨"couldn't get ".toList,
      " for controller ".toList ++ fmtStrings [full, N] ++ ": ".toList ++ err,
      by simp [readErrorText]⟩
  · exact ⟨"couldn't get ".toList ++ k ++ " for controller ".toList ++ '[' :: (full ++ [' ']),
      ']' :: (": ".toList ++ err),
      by simp [readErrorText, fmtStrings, List.intercalate, List.intersperse]⟩

/-- The first block of the loop body with a failing read returns the read error and
sends nothing. -/
theorem controllerBody_read_error (c : edacCollector) (env : Env) (p : Str) (sent : List Metric)
    (cn : List Str) (e : Str)
    (hre : FindStringSubmatch edacMemControllerRE p = some cn)
    (hread : env.readUintFromFile (pathJoin p "ce_count".toList) = .error e) :
    controllerBody c env p sent
      = .error ⟨.returned (some (readErrorText "ce_count".toList cn e)), sent⟩ := by
  unfold controllerBody
  rw [hre]
  simp only [readAndSend, hread]

/-- A path that the expression does not match makes the loop body return the mismatch
error and send nothing. -/
theorem controllerBody_no_match (c : edacCollector) (env : Env) (p : Str) (sent : List Metric)
    (hre : FindStringSubmatch edacMemControllerRE p = none) :
    controllerBody c env p sent = .error ⟨.returned (some (noMatchErrorText p)), sent⟩ := by
  simp [controllerBody, hre]

/-- With the descriptors of `NewEdacCollector`, a successful read of `ce_count` is followed
by a panic of `MustNewConstMetric`: the sample is built without a label value. -/
theorem controllerBody_panics (env : Env) (p : Str) (sent : List Metric) (cn : List Str)
    (v : Nat)
    (hre : FindStringSubmatch edacMemControllerRE p = some cn)
    (hread : env.readUintFromFile (pathJoin p "ce_count".toList) = .ok v) :
    controllerBody NewEdacCollector env p sent
      = .error ⟨.panicked errInconsistentCardinality, sent⟩ := by
  unfold controllerBody
  rw [hre]
  simp only [readAndSend, hread]
  rfl

/-- An early exit of a read block is a panic or the read error of its file. -/
theorem readAndSend_error (env : Env) (controller : Str) (cn : List Str) (name : Str)
    (desc : Desc) (sent : List Metric) (o : Outcome)
    (h : readAndSend env controller cn name desc sent = .error o) (msg : Str)
    (hmsg : o.ending = .returned (some msg)) :
    ∃ err, env.readUintFromFile (pathJoin controller name) = .error err
      ∧ msg = readErrorText name cn err := by
  unfold readAndSend at h
  cases hr : env.readUintFromFile (pathJoin controller name) with
  | error err =>
    rw [hr] at h
    simp only [Except.error.injEq] at h
    rw [← h] at hmsg
    simp only [Ending.returned.injEq, Option.some.injEq] at hmsg
    exact ⟨err, rfl, hmsg.symm⟩
  | ok v =>
    rw [hr] at h
    simp only [sendConstMetric] at h
    cases hn : NewConstMetric desc ValueType.CounterValue (float64OfUint64 v : Int) [] with
    | error e =>
      rw [hn] at h
      simp only [Except.error.injEq] at h
      rw [← h] at hmsg
      cases hmsg
    | ok m => rw [hn] at h; cases h

/-- An early exit of the csrow loop returns the mismatch text. -/
theorem csrowLoop_error (controller : Str) (sent : List Metric) :
    ∀ (csrows : List Str) (o : Outcome), csrowLoop controller sent csrows = .error o →
      o = ⟨.returned (some (noMatchErrorText controller)), sent⟩
  | [], o, h => by simp [csrowLoop] at h
  | csrow :: rest, o, h => by
    unfold csrowLoop at h
    cases hre : FindStringSubmatch edacMemCsrowRE csrow with
    | none =>
      rw [hre] at h
      simp only [Except.error.injEq] at h
      exact h.symm
    | some r =>
      rw [hre] at h
      exact csrowLoop_error controller sent rest o h

/-- The errors returned from the loop body. -/
theorem controllerBody_error (c : edacCollector) (env : Env) (p : Str) (sent : List Metric)
    (o : Outcome) (h : controllerBody c env p sent = .error o) (msg : Str)
    (hmsg : o.ending = .returned (some msg)) : BodyError env p msg := by
  unfold controllerBody at h
  cases hre : FindStringSubmatch edacMemControllerRE p with
  | none =>
    rw [hre] at h
    simp only [Except.error.injEq] at h
    rw [← h] at hmsg
    simp only [Ending.returned.injEq, Option.some.injEq] at hmsg
    exact Or.inr (Or.inl hmsg.symm)
  | some cn =>
    rw [hre] at h
    simp only at h
    have hblock : ∀ (k : Str) (hk : k ∈ counterNames) (desc : Desc) (snt : List Metric)
        (o' : Outcome), readAndSend env p cn k desc snt = .error o' → o' = o →
        BodyError env p msg := by
      intro k hk desc snt o' hrs ho
      obtain ⟨err, her, hm⟩ := readAndSend_error env p cn k desc snt o' hrs msg (ho ▸ hmsg)
      exact Or.inl ⟨k, hk, cn, err, hre, her, hm⟩
    cases h1 : readAndSend env p cn "ce_count".toList c.ceCount sent with
    | error o1 =>
      rw [h1] at h
      exact hblock _ (by decide) _ _ _ h1 (by simpa using h)
    | ok sent1 =>
      rw [h1] at h
      simp only at h
      cases h2 : readAndSend env p cn "ce_noinfo_count".toList c.ceNoinfoCount sent1 with
      | error o2 =>
        rw [h2] at h
        exact hblock _ (by decide) _ _ _ h2 (by simpa using h)
      | ok sent2 =>
        rw [h2] at h
        simp only at h
        cases h3 : readAndSend env p cn "ue_count".toList c.ueCount sent2 with
        | error o3 =>
          rw [h3] at h
          exact hblock _ (by decide) _ _ _ h3 (by simpa using h)
        | ok sent3 =>
          rw [h3] at h
          simp only at h
          cases h4 : readAndSend env p cn "ue_noinfo_count".toList c.ueNoinfoCount sent3 with
          | error o4 =>
            rw [h4] at h
            exact hblock _ (by decide) _ _ _ h4 (by simpa using h)
          | ok sent4 =>
            rw [h4] at h
            simp only at h
            cases hg : Glob env (p ++ "csrow[0-9]*".toList) with
            | error e =>
              rw [hg] at h
              simp only [Except.error.injEq] at h
              rw [← h] at hmsg
              simp only [Ending.returned.injEq, Option.some.injEq] at hmsg
              exact Or.inr (Or.inr (hmsg ▸ hg))
            | ok csrows =>
              rw [hg] at h
              simp only at h
              cases hl : csrowLoop p sent4 csrows with
              | error o5 =>
                rw [hl] at h
                simp only [Except.error.injEq] at h
                have := csrowLoop_error p sent4 csrows o5 hl
                rw [← h, this] at hmsg
                simp only [Ending.returned.injEq, Option.some.injEq] at hmsg
                exact Or.inr (Or.inl hmsg.symm)
              | ok u =>
                rw [hl] at h
                cases h

/-- The errors returned from the loop over the controllers. -/
theorem controllerLoop_error (c : edacCollector) (env : Env) :
    ∀ (l : List Str) (sent : List Metric) (msg : Str),
      (controllerLoop c env l sent).ending = .returned (some msg) →
      ∃ p ∈ l, BodyError env p msg
  | [], sent, msg, h => by simp [controllerLoop] at h
  | p :: rest, sent, msg, h => by
    unfold controllerLoop at h
    cases hb : controllerBody c env p sent with
    | error o =>
      rw [hb] at h
      exact ⟨p, by simp, controllerBody_error c env p sent o hb msg h⟩
    | ok sent' =>
      rw [hb] at h
      obtain ⟨q, hq, hqe⟩ := controllerLoop_error c env rest sent' msg h
      exact ⟨q, by simp [hq], hqe⟩

/-! ### Forward behaviour of the loop -/

/-- Below `2^53` the conversion to `float64` is exact. -/
theorem float64OfUint64_small (n : Nat) (h : n < 9007199254740992) : float64OfUint64 n = n := by
  simp [float64OfUint64, float64Shift, h, Nat.mod_one]

/-- A block whose read succeeds and whose descriptor declares no label sends one sample. -/
theorem readAndSend_ok (env : Env) (controller : Str) (cn : List Str) (name : Str)
    (desc : Desc) (sent : List Metric) (v : Nat)
    (hread : env.readUintFromFile (pathJoin controller name) = .ok v)
    (hl : desc.variableLabels = []) :
    readAndSend env controller cn name desc sent
      = .ok (sent ++ [⟨desc, .CounterValue, (float64OfUint64 v : Int), []⟩]) := by
  unfold readAndSend
  rw [hread]
  simp [sendConstMetric, NewConstMetric, hl]

/-- A block whose read fails returns the read-error text and sends nothing more. -/
theorem readAndSend_fail (env : Env) (controller : Str) (cn : List Str) (name : Str)
    (desc : Desc) (sent : List Metric) (err : Str)
    (hread : env.readUintFromFile (pathJoin controller name) = .error err) :
    readAndSend env controller cn name desc sent
      = .error ⟨.returned (some (readErrorText name cn err)), sent⟩ := by
  unfold readAndSend
  rw [hread]

/-- The csrow loop ends normally when every csrow path is matched. -/
theorem csrowLoop_ok (controller : Str) (sent : List Metric) :
    ∀ (csrows : List Str), (∀ r ∈ csrows, (FindStringSubmatch edacMemCsrowRE r).isSome) →
      csrowLoop controller sent csrows = .ok ()
  | [], _ => rfl
  | r :: rest, h => by
    obtain ⟨x, hx⟩ := Option.isSome_iff_exists.mp (h r (by simp))
    unfold csrowLoop
    rw [hx]
    exact csrowLoop_ok controller sent rest (fun r' hr' => h r' (by simp [hr']))

/-- The loop body on the first failing read of controller `p`: when the blocks before the
one for `k` read their files and have their samples accepted, and the read of `k` fails,
the body returns the read-error text for `k`. -/
theorem controllerBody_read_failure (c : edacCollector) (env : Env) (p : Str)
    (sent : List Metric) (cn : List Str) (done later : List (Str × Desc)) (k : Str) (d : Desc)
    (err : Str)
    (hre : FindStringSubmatch edacMemControllerRE p = some cn)
    (hblocks : counterBlocks c = done ++ (k, d) :: later)
    (hdone : ∀ kd ∈ done,
      (∃ v, env.readUintFromFile (pathJoin p kd.1) = .ok v) ∧ kd.2.variableLabels = [])
    (hread : env.readUintFromFile (pathJoin p k) = .error err) :
    ∃ sent', controllerBody c env p sent
      = .error ⟨.returned (some (readErrorText k cn err)), sent'⟩ := by
  unfold counterBlocks at hblocks
  unfold controllerBody
  rw [hre]
  simp only
  rcases done with _ | ⟨b1, _ | ⟨b2, _ | ⟨b3, _ | ⟨b4, done'⟩⟩⟩⟩
  · simp only [List.nil_append] at hblocks
    cases hblocks
    rw [readAndSend_fail env p cn _ _ sent err hread]
    exact ⟨_, rfl⟩
  · simp only [List.cons_append, List.nil_append] at hblocks
    cases hblocks
    obtain ⟨⟨v1, hv1⟩, hl1⟩ := hdone ("ce_count".toList, c.ceCount) (List.mem_cons_self _ _)
    rw [readAndSend_ok env p cn _ _ sent v1 hv1 hl1]
    simp only
    rw [readAndSend_fail env p cn _ _ _ err hread]
    exact ⟨_, rfl⟩
  · simp only [List.cons_append, List.nil_append] at hblocks
    cases hblocks
    obtain ⟨⟨v1, hv1⟩, hl1⟩ := hdone ("ce_count".toList, c.ceCount) (by simp)
    obtain ⟨⟨v2, hv2⟩, hl2⟩ := hdone ("ce_noinfo_count".toList, c.ceNoinfoCount) (by simp)
    rw [readAndSend_ok env p cn _ _ sent v1 hv1 hl1]
    simp only
    rw [readAndSend_ok env p cn _ _ _ v2 hv2 hl2]
    simp only
    rw [readAndSend_fail env p cn _ _ _ err hread]
    exact ⟨_, rfl⟩
  · simp only [List.cons_append, List.nil_append] at hblocks
    cases hblocks
    obtain ⟨⟨v1, hv1⟩, hl1⟩ := hdone ("ce_count".toList, c.ceCount) (by simp)
    obtain ⟨⟨v2, hv2⟩, hl2⟩ := hdone ("ce_noinfo_count".toList, c.ceNoinfoCount) (by simp)
    obtain ⟨⟨v3, hv3⟩, hl3⟩ := hdone ("ue_count".toList, c.ueCount) (by simp)
    rw [readAndSend_ok env p cn _ _ sent v1 hv1 hl1]
    simp only
    rw [readAndSend_ok env p cn _ _ _ v2 hv2 hl2]
    simp only
    rw [readAndSend_ok env p cn _ _ _ v3 hv3 hl3]
    simp only
    rw [readAndSend_fail env p cn _ _ _ err hread]
    exact ⟨_, rfl⟩
  · have := congrArg List.length hblocks
    simp at this

/-- An iteration that runs to its end hands the loop over to the next controller. -/
theorem controllerBody_completes (c : edacCollector) (env : Env) (q : Str)
    (h : IterationCompletes c env q) (sent : List Metric) :
    ∃ sent', controllerBody c env q sent = .ok sent' := by
  obtain ⟨hre, hb, csrows, hg, hcs⟩ := h
  obtain ⟨cn, hcn⟩ := Option.isSome_iff_exists.mp hre
  obtain ⟨⟨v1, hv1⟩, hl1⟩ := hb ("ce_count".toList, c.ceCount) (by simp [counterBlocks])
  obtain ⟨⟨v2, hv2⟩, hl2⟩ :=
    hb ("ce_noinfo_count".toList, c.ceNoinfoCount) (by simp [counterBlocks])
  obtain ⟨⟨v3, hv3⟩, hl3⟩ := hb ("ue_count".toList, c.ueCount) (by simp [counterBlocks])
  obtain ⟨⟨v4, hv4⟩, hl4⟩ :=
    hb ("ue_noinfo_count".toList, c.ueNoinfoCount) (by simp [counterBlocks])
  unfold controllerBody
  rw [hcn]
  simp only
  rw [readAndSend_ok env q cn _ _ sent v1 hv1 hl1]
  simp only
  rw [readAndSend_ok env q cn _ _ _ v2 hv2 hl2]
  simp only
  rw [readAndSend_ok env q cn _ _ _ v3 hv3 hl3]
  simp only
  rw [readAndSend_ok env q cn _ _ _ v4 hv4 hl4]
  simp only
  rw [hg]
  simp only
  rw [csrowLoop_ok q _ csrows hcs]
  exact ⟨_, rfl⟩

/-- The loop runs through the controllers whose iterations complete. -/
theorem controllerLoop_skip (c : edacCollector) (env : Env) (l : List Str) :
    ∀ (pre : List Str) (sent : List Metric), (∀ q ∈ pre, IterationCompletes c env q) →
      ∃ sent', controllerLoop c env (pre ++ l) sent = controllerLoop c env l sent'
  | [], sent, _ => ⟨sent, rfl⟩
  | q :: pre, sent, h => by
    obtain ⟨s1, hs1⟩ := controllerBody_completes c env q (h q (by simp)) sent
    obtain ⟨s2, hs2⟩ := controllerLoop_skip c env l pre s1 (fun q' hq' => h q' (by simp [hq']))
    refine ⟨s2, ?_⟩
    have step : controllerLoop c env (q :: (pre ++ l)) sent
        = controllerLoop c env (pre ++ l) s1 := by
      simp only [controllerLoop, hs1]
    show controllerLoop c env (q :: (pre ++ l)) sent = _
    rw [step]
    exact hs2

/-- C1 (amended): when the first read of the cycle fails, that is `ce_count` of the first
discovered controller, `Update` returns a non-nil error and no metric is sent. -/
theorem C1_first_read_failure_sends_nothing (c : edacCollector) (env : Env) (p : Str)
    (rest : List Str) (e : Str)
    (hglob : Glob env (controllerPattern env) = .ok (p :: rest))
    (hread : env.readUintFromFile (pathJoin p "ce_count".toList) = .error e) :
    (∃ msg, (edacUpdate c env).ending = .returned (some msg)) ∧ (edacUpdate c env).sent = [] := by
  unfold edacUpdate
  rw [hglob]
  simp only [controllerLoop]
  cases hre : FindStringSubmatch edacMemControllerRE p with
  | none => rw [controllerBody_no_match c env p [] hre]; exact ⟨⟨_, rfl⟩, rfl⟩
  | some cn => rw [controllerBody_read_error c env p [] cn e hre hread]; exact ⟨⟨_, rfl⟩, rfl⟩

/-- Witness of C1 (amended): controller `mc0` without a `ce_count` file. -/
theorem C1_first_read_failure_sends_nothing_witness :
    (∃ msg, (edacUpdate NewEdacCollector envNoFiles).ending = .returned (some msg))
      ∧ (edacUpdate NewEdacCollector envNoFiles).sent = [] :=
  C1_first_read_failure_sends_nothing NewEdacCollector envNoFiles mc0 []
    ("open ".toList ++ (mc0 ++ "/ce_count".toList) ++ ": no such file or directory".toList)
    (by decide) (by decide)

/-- C1 (counterexample): with `ce_count` of `mc0` readable and `ce_noinfo_count` missing,
it is not the case that `Update` returns a non-nil error having sent zero metrics: the
collector of `NewEdacCollector` panics on the first sample, and a collector whose
descriptors declare no label returns the read error after one sample has been sent. -/
theorem C1_counterexample :
    ¬ ((∃ msg, (edacUpdate NewEdacCollector envCeOnly).ending = .returned (some msg))
        ∧ (edacUpdate NewEdacCollector envCeOnly).sent.length = 0)
      ∧ (∃ msg, (edacUpdate unlabelledCollector envCeOnly).ending = .returned (some msg))
      ∧ (edacUpdate unlabelledCollector envCeOnly).sent
        = [⟨unlabelledCollector.ceCount, .CounterValue, 5, []⟩] := by
  have h : edacUpdate NewEdacCollector envCeOnly
      = ⟨.panicked errInconsistentCardinality, []⟩ := by decide
  refine ⟨?_, ⟨_, rfl⟩, by decide⟩
  rw [h]
  rintro ⟨⟨msg, hmsg⟩, -⟩
  cases hmsg

/-- C2 (failing input): each of the four controller descriptors declares the single
label `controller`, yet the sample for `ce_count` of `mc0` is built with no label value, so
`NewConstMetric` refuses it and `Update` panics before anything is sent; with the label
value `0` the sample would be accepted. -/
theorem C2_sample_built_without_label_value :
    NewEdacCollector.ceCount.variableLabels = ["controller".toList]
      ∧ NewEdacCollector.ceNoinfoCount.variableLabels = ["controller".toList]
      ∧ NewEdacCollector.ueCount.variableLabels = ["controller".toList]
      ∧ NewEdacCollector.ueNoinfoCount.variableLabels = ["controller".toList]
      ∧ readAndSend envCeOnly mc0 [mc0, "0".toList] "ce_count".toList
          NewEdacCollector.ceCount []
        = .error ⟨.panicked errInconsistentCardinality, []⟩
      ∧ edacUpdate NewEdacCollector envCeOnly = ⟨.panicked errInconsistentCardinality, []⟩
      ∧ NewConstMetric NewEdacCollector.ceCount .CounterValue 5 ["0".toList]
        = .ok ⟨NewEdacCollector.ceCount, .CounterValue, 5, ["0".toList]⟩ := by
  decide

/-- C3 (failing input): with one controller whose four counter files are readable,
`Update` does not return nil and sends no metric; with no controller it returns nil and
sends no metric. With descriptors that declare no label the same input gives nil and four
samples. -/
theorem C3_one_readable_controller_panics :
    edacUpdate NewEdacCollector envOneController = ⟨.panicked errInconsistentCardinality, []⟩
      ∧ edacUpdate NewEdacCollector envNoController = ⟨.returned none, []⟩
      ∧ (edacUpdate unlabelledCollector envOneController).ending = .returned none
      ∧ (edacUpdate unlabelledCollector envOneController).sent.length = 4 := by
  decide

/-- C8 (failing input): in the scenario of two controllers with all counter files
readable, `Update` panics and the sequence of samples sent is empty. With descriptors
that declare no label the same input gives the eight samples in the order of the claim. -/
theorem C8_two_controllers_nothing_sent :
    Glob envTwoControllers (controllerPattern envTwoControllers) = .ok [mc0, mc1]
      ∧ (edacUpdate NewEdacCollector envTwoControllers).ending
        = .panicked errInconsistentCardinality
      ∧ (edacUpdate NewEdacCollector envTwoControllers).sent = []
      ∧ edacUpdate unlabelledCollector envTwoControllers
        = ⟨.returned none,
            [⟨unlabelledCollector.ceCount, .CounterValue, 5, []⟩,
             ⟨unlabelledCollector.ceNoinfoCount, .CounterValue, 0, []⟩,
             ⟨unlabelledCollector.ueCount, .CounterValue, 0, []⟩,
             ⟨unlabelledCollector.ueNoinfoCount, .CounterValue, 0, []⟩,
             ⟨unlabelledCollector.ceCount, .CounterValue, 10, []⟩,
             ⟨unlabelledCollector.ceNoinfoCount, .CounterValue, 1, []⟩,
             ⟨unlabelledCollector.ueCount, .CounterValue, 0, []⟩,
             ⟨unlabelledCollector.ueNoinfoCount, .CounterValue, 0, []⟩]⟩ := by
  decide

/-- C9 (failing input): the csrow pattern built for controller `mc0` is the controller
path directly followed by `csrow[0-9]*`; it does not match the child `mc0/csrow0`, finds
nothing when that child exists, and finds the sibling `mc0csrow0`, which the csrow
expression rejects, so that a collector whose samples are accepted returns the mismatch
error from the csrow loop. -/
theorem C9_csrow_pattern_misses_children :
    mc0 ++ "csrow[0-9]*".toList = "/sys/devices/system/edac/mc/mc0csrow[0-9]*".toList
      ∧ Match (mc0 ++ "csrow[0-9]*".toList) (mc0 ++ "/csrow0".toList) = some false
      ∧ Glob envCsrowChild (mc0 ++ "csrow[0-9]*".toList) = .ok []
      ∧ Glob envCsrowSibling (mc0 ++ "csrow[0-9]*".toList)
        = .ok ["/sys/devices/system/edac/mc/mc0csrow0".toList]
      ∧ FindStringSubmatch edacMemCsrowRE "/sys/devices/system/edac/mc/mc0csrow0".toList
        = none
      ∧ FindStringSubmatch edacMemCsrowRE (mc0 ++ "/csrow0".toList)
        = some [mc0 ++ "/csrow0".toList, "0".toList]
      ∧ (edacUpdate unlabelledCollector envCsrowSiblingReadable).ending
        = .returned (some (noMatchErrorText mc0)) := by
  decide

/-- C10 (failing input): for the 16-byte kernel record whose 64-bit seconds field holds
`2147483648`, the sample sent by `Update` has the value `-2147483648`. -/
theorem C10_seconds_truncated_to_int32 :
    statUpdate NewStatCollector (mkKern (kernelTimeval64 2147483648 0))
      = ⟨.returned none, [⟨NewStatCollector.btime, .GaugeValue, -2147483648, []⟩]⟩ := by
  decide

/-- C6: when the boot-time query succeeds with a buffer whose first four bytes are
`b0 b1 b2 b3`, `Update` returns nil and sends exactly one gauge sample of the `btime`
descriptor, with the little-endian `int32` of those bytes as value and no label value;
when the query fails, `Update` returns that error and sends nothing. -/
theorem C6_boot_time_sample (env : KernEnv) :
    (∀ b0 b1 b2 b3 : Nat, ∀ rest : List Nat, b0 < 256 → b1 < 256 → b2 < 256 → b3 < 256 →
        env.SysctlRaw "kern.boottime".toList = .ok (b0 :: b1 :: b2 :: b3 :: rest) →
        statUpdate NewStatCollector env
          = ⟨.returned none,
              [⟨NewStatCollector.btime, .GaugeValue, int32LE b0 b1 b2 b3, []⟩]⟩)
      ∧ (∀ err : Str, env.SysctlRaw "kern.boottime".toList = .error err →
        statUpdate NewStatCollector env = ⟨.returned (some err), []⟩) := by
  constructor
  · intro b0 b1 b2 b3 rest h0 h1 h2 h3 hq
    have hsec : timevalSec (b0 :: b1 :: b2 :: b3 :: rest) env.heap = int32LE b0 b1 b2 b3 := by
      simp [timevalSec, byteAt, Nat.mod_eq_of_lt h0, Nat.mod_eq_of_lt h1,
        Nat.mod_eq_of_lt h2, Nat.mod_eq_of_lt h3]
    unfold statUpdate
    rw [hq]
    simp only [hsec]
    rfl
  · intro err hq
    unfold statUpdate
    rw [hq]

/-- Witness of C6: the record decoding to `1700000000`, and a failing query. -/
theorem C6_boot_time_sample_witness :
    statUpdate NewStatCollector (mkKern (kernelTimeval64 1700000000 0))
        = ⟨.returned none, [⟨NewStatCollector.btime, .GaugeValue, 1700000000, []⟩]⟩
      ∧ statUpdate NewStatCollector (failKern "operation not permitted".toList)
        = ⟨.returned (some "operation not permitted".toList), []⟩ :=
  ⟨(C6_boot_time_sample (mkKern (kernelTimeval64 1700000000 0))).1 0 241 83 101
      [0, 0, 0, 0, 0, 0, 0, 0, 0, 0, 0, 0] (by decide) (by decide) (by decide) (by decide)
      (by decide),
    (C6_boot_time_sample (failKern "operation not permitted".toList)).2
      "operation not permitted".toList rfl⟩

/-- Every error that `Update` returns after a successful discovery is the read-error text
of a discovered controller and one of its four counters whose read failed, or an error of
the csrow walk of a discovered controller. -/
theorem edacUpdate_returned_error (c : edacCollector) (env : Env) (l : List Str) (msg : Str)
    (hglob : Glob env (controllerPattern env) = .ok l)
    (hend : (edacUpdate c env).ending = .returned (some msg)) :
    ∃ p ∈ l,
      (∃ k ∈ counterNames, ∃ full N err,
        FindStringSubmatch edacMemControllerRE p = some [full, N]
          ∧ env.readUintFromFile (pathJoin p k) = .error err
          ∧ msg = readErrorText k [full, N] err ∧ Occurs k msg ∧ Occurs N msg)
      ∨ msg = noMatchErrorText p
      ∨ Glob env (p ++ "csrow[0-9]*".toList) = .error msg := by
  unfold edacUpdate at hend
  rw [hglob] at hend
  obtain ⟨p, hp, hbody⟩ := controllerLoop_error c env l [] msg hend
  refine ⟨p, hp, ?_⟩
  rcases hbody with ⟨k, hk, cn, err, hre, hread, hmsg⟩ | h2 | h3
  · obtain ⟨full, N, hcn⟩ := controller_submatch_shape p cn hre
    subst hcn
    exact Or.inl ⟨k, hk, full, N, err, hre, hread, hmsg,
      hmsg ▸ (readErrorText_occurs k full N err).1,
      hmsg ▸ (readErrorText_occurs k full N err).2⟩
  · exact Or.inr (Or.inl h2)
  · exact Or.inr (Or.inr h3)

/-- C4: for every discovered controller `p` and each of the four counters `k`: when the
iterations of the controllers discovered before `p` run to their end, the blocks of `p`
before the one for `k` read their files and have their samples accepted, and the read of
`k` for `p` fails with `err`, then `Update` returns the error
`couldn't get <k> for controller [<matched text> <N>]: <err>`, whose text contains the
counter name `k` and the controller number `N` captured by `edacMemControllerRE`. -/
theorem C4_read_error_names_counter_and_controller (c : edacCollector) (env : Env)
    (pre : List Str) (p : Str) (rest : List Str) (done later : List (Str × Desc)) (k : Str)
    (d : Desc) (err : Str)
    (hglob : Glob env (controllerPattern env) = .ok (pre ++ p :: rest))
    (hpre : ∀ q ∈ pre, IterationCompletes c env q)
    (hblocks : counterBlocks c = done ++ (k, d) :: later)
    (hdone : ∀ kd ∈ done,
      (∃ v, env.readUintFromFile (pathJoin p kd.1) = .ok v) ∧ kd.2.variableLabels = [])
    (hread : env.readUintFromFile (pathJoin p k) = .error err) :
    ∃ full N, FindStringSubmatch edacMemControllerRE p = some [full, N]
      ∧ (edacUpdate c env).ending = .returned (some (readErrorText k [full, N] err))
      ∧ Occurs k (readErrorText k [full, N] err)
      ∧ Occurs N (readErrorText k [full, N] err) := by
  have hsome := discovered_paths_match env (pre ++ p :: rest) hglob p (by simp)
  obtain ⟨cn, hre⟩ := Option.isSome_iff_exists.mp hsome
  obtain ⟨full, N, hcn⟩ := controller_submatch_shape p cn hre
  subst hcn
  refine ⟨full, N, hre, ?_, (readErrorText_occurs k full N err).1,
    (readErrorText_occurs k full N err).2⟩
  obtain ⟨sentPre, hskip⟩ := controllerLoop_skip c env (p :: rest) pre [] hpre
  obtain ⟨sent', hbody⟩ :=
    controllerBody_read_failure c env p sentPre [full, N] done later k d err hre hblocks
      hdone hread
  have hloop : controllerLoop c env (p :: rest) sentPre
      = ⟨.returned (some (readErrorText k [full, N] err)), sent'⟩ := by
    simp only [controllerLoop, hbody]
  unfold edacUpdate
  rw [hglob]
  show (controllerLoop c env (pre ++ p :: rest) []).ending = _
  rw [hskip, hloop]

/-- Witness of C4: the read of `ue_count` of the second controller `mc1` fails after the
iteration of `mc0` and two blocks of `mc1` have run (with accepted samples); and the read
of `ce_count` of `mc0` fails as the first read of a cycle. -/
theorem C4_read_error_names_counter_and_controller_witness :
    (∃ full N, FindStringSubmatch edacMemControllerRE mc1 = some [full, N]
      ∧ (edacUpdate unlabelledCollector envSecondUeMissing).ending
        = .returned (some (readErrorText "ue_count".toList [full, N]
            ("open ".toList ++ (mc1 ++ "/ue_count".toList)
              ++ ": no such file or directory".toList)))
      ∧ Occurs "ue_count".toList (readErrorText "ue_count".toList [full, N]
            ("open ".toList ++ (mc1 ++ "/ue_count".toList)
              ++ ": no such file or directory".toList))
      ∧ Occurs N (readErrorText "ue_count".toList [full, N]
            ("open ".toList ++ (mc1 ++ "/ue_count".toList)
              ++ ": no such file or directory".toList)))
    ∧ (∃ full N, FindStringSubmatch edacMemControllerRE mc0 = some [full, N]
      ∧ (edacUpdate NewEdacCollector envNoFiles).ending
        = .returned (some (readErrorText "ce_count".toList [full, N]
            ("open ".toList ++ (mc0 ++ "/ce_count".toList)
              ++ ": no such file or directory".toList)))
      ∧ Occurs "ce_count".toList (readErrorText "ce_count".toList [full, N]
            ("open ".toList ++ (mc0 ++ "/ce_count".toList)
              ++ ": no such file or directory".toList))
      ∧ Occurs N (readErrorText "ce_count".toList [full, N]
            ("open ".toList ++ (mc0 ++ "/ce_count".toList)
              ++ ": no such file or directory".toList))) :=
  ⟨C4_read_error_names_counter_and_controller unlabelledCollector envSecondUeMissing
      [mc0] mc1 []
      [("ce_count".toList, unlabelledCollector.ceCount),
       ("ce_noinfo_count".toList, unlabelledCollector.ceNoinfoCount)]
      [("ue_noinfo_count".toList, unlabelledCollector.ueNoinfoCount)]
      "ue_count".toList unlabelledCollector.ueCount
      ("open ".toList ++ (mc1 ++ "/ue_count".toList) ++ ": no such file or directory".toList)
      (by decide)
      (by
        intro q hq
        have hq' : q = mc0 := by simpa using hq
        subst hq'
        refine ⟨by decide, ?_, [], by decide, by simp⟩
        intro kd hkd
        simp only [counterBlocks, List.mem_cons, List.mem_singleton, List.not_mem_nil,
          or_false] at hkd
        rcases hkd with h | h | h | h <;> subst h
        · exact ⟨⟨5, by decide⟩, by decide⟩
        · exact ⟨⟨0, by decide⟩, by decide⟩
        · exact ⟨⟨0, by decide⟩, by decide⟩
        · exact ⟨⟨0, by decide⟩, by decide⟩)
      (by decide)
      (by
        intro kd hkd
        simp only [List.mem_cons, List.mem_singleton, List.not_mem_nil, or_false] at hkd
        rcases hkd with h | h <;> subst h
        · exact ⟨⟨10, by decide⟩, by decide⟩
        · exact ⟨⟨1, by decide⟩, by decide⟩)
      (by decide),
    C4_read_error_names_counter_and_controller NewEdacCollector envNoFiles [] mc0 []
      [] [("ce_noinfo_count".toList, NewEdacCollector.ceNoinfoCount),
        ("ue_count".toList, NewEdacCollector.ueCount),
        ("ue_noinfo_count".toList, NewEdacCollector.ueNoinfoCount)]
      "ce_count".toList NewEdacCollector.ceCount
      ("open ".toList ++ (mc0 ++ "/ce_count".toList) ++ ": no such file or directory".toList)
      (by decide) (by simp) (by decide) (by simp) (by decide)⟩

/-- C5 (counterexample): the entries `mc0` and `mc0x` are both discovered, as two distinct
paths, and both yield the controller number `0`. -/
theorem C5_counterexample :
    Glob envSameDigits (controllerPattern envSameDigits) = .ok [mc0, mc0 ++ ['x']]
      ∧ mc0 ≠ mc0 ++ ['x']
      ∧ FindStringSubmatch edacMemControllerRE mc0 = some [mc0, "0".toList]
      ∧ FindStringSubmatch edacMemControllerRE (mc0 ++ ['x']) = some [mc0, "0".toList] := by
  decide

/-- C5 (amended): in a controller directory `<pre>devices/system/edac/mc` whose path holds
no newline, two distinct paths `mc<d1>` and `mc<d2>` named by digit strings yield the
controller numbers `d1` and `d2`, which are distinct. -/
theorem C5_digit_names_distinct_identities (pre d1 d2 : Str) (hpre : ∀ c ∈ pre, c ≠ '\n')
    (h1 : ∀ c ∈ d1, '0' ≤ c ∧ c ≤ '9') (h2 : ∀ c ∈ d2, '0' ≤ c ∧ c ≤ '9')
    (hne : pre ++ ("devices/system/edac/mc".toList ++ '/' :: ("mc".toList ++ d1))
      ≠ pre ++ ("devices/system/edac/mc".toList ++ '/' :: ("mc".toList ++ d2))) :
    FindStringSubmatch edacMemControllerRE
        (pre ++ ("devices/system/edac/mc".toList ++ '/' :: ("mc".toList ++ d1)))
      = some [pre ++ ("devices/system/edac/mc".toList ++ '/' :: ("mc".toList ++ d1)), d1]
    ∧ FindStringSubmatch edacMemControllerRE
        (pre ++ ("devices/system/edac/mc".toList ++ '/' :: ("mc".toList ++ d2)))
      = some [pre ++ ("devices/system/edac/mc".toList ++ '/' :: ("mc".toList ++ d2)), d2]
    ∧ d1 ≠ d2 :=
  ⟨controller_submatch pre d1 hpre h1, controller_submatch pre d2 hpre h2,
    fun e => hne (by rw [e])⟩

/-- Witness of C5 (amended): the controllers `mc0` and `mc10` below `/sys`. -/
theorem C5_digit_names_distinct_identities_witness :
    FindStringSubmatch edacMemControllerRE "/sys/devices/system/edac/mc/mc0".toList
      = some ["/sys/devices/system/edac/mc/mc0".toList, "0".toList]
    ∧ FindStringSubmatch edacMemControllerRE "/sys/devices/system/edac/mc/mc10".toList
      = some ["/sys/devices/system/edac/mc/mc10".toList, "10".toList]
    ∧ "0".toList ≠ "10".toList :=
  C5_digit_names_distinct_identities "/sys/".toList "0".toList "10".toList
    (by decide) (by decide) (by decide) (by decide)

/-- C7 (counterexample): below a sysfs root whose path holds a newline, the discovered
path `<root>/devices/system/edac/mc/mc3` yields the controller number `7`, not `3`. -/
theorem C7_counterexample :
    Glob envNewlineRoot (controllerPattern envNewlineRoot)
        = .ok [envNewlineRoot.sysPath ++ "/devices/system/edac/mc/mc3".toList]
      ∧ envNewlineRoot.sysPath ++ "/devices/system/edac/mc/mc3".toList
        = (envNewlineRoot.sysPath ++ ['/'])
          ++ ("devices/system/edac/mc".toList ++ '/' :: ("mc".toList ++ "3".toList))
      ∧ FindStringSubmatch edacMemControllerRE
          (envNewlineRoot.sysPath ++ "/devices/system/edac/mc/mc3".toList)
        = some ["/tmp/devices/system/edac/mc/mc7".toList, "7".toList] := by
  decide

/-- C7 (amended): every path discovered by the controller glob, for any sysfs root, is
matched by `edacMemControllerRE`, so the loop of `Update` never meets a nil submatch; so
is every path whose last element matches `mc[0-9]*` inside a directory
`devices/system/edac/mc`; and for a path `<pre>devices/system/edac/mc/mc<d>` with `d` a
digit string and no newline in `pre`, the captured controller number is exactly `d`. -/
theorem C7_discovery_and_identity_lock_step :
    (∀ (env : Env) (l : List Str), Glob env (controllerPattern env) = .ok l →
        ∀ p ∈ l, (FindStringSubmatch edacMemControllerRE p).isSome)
      ∧ (∀ (pre name : Str), matchGlobItems controllerItems name = true →
        (FindStringSubmatch edacMemControllerRE
          (pre ++ ("devices/system/edac/mc".toList ++ '/' :: name))).isSome)
      ∧ (∀ (pre d : Str), (∀ c ∈ pre, c ≠ '\n') → (∀ c ∈ d, '0' ≤ c ∧ c ≤ '9') →
        FindStringSubmatch edacMemControllerRE
            (pre ++ ("devices/system/edac/mc".toList ++ '/' :: ("mc".toList ++ d)))
          = some [pre ++ ("devices/system/edac/mc".toList ++ '/' :: ("mc".toList ++ d)), d]) := by
  refine ⟨discovered_paths_match, ?_, controller_submatch⟩
  intro pre name hm
  obtain ⟨c, rest, hname, -, -⟩ := controllerItems_match name hm
  rw [hname]
  exact controller_match_isSome pre (c :: rest)

/-- Witness of C7 (amended): the two controllers below `/sys`, the entry `mc0x`, and the
path of controller `mc12`. -/
theorem C7_discovery_and_identity_lock_step_witness :
    (∀ p ∈ [mc0, mc1], (FindStringSubmatch edacMemControllerRE p).isSome)
      ∧ (FindStringSubmatch edacMemControllerRE
          ("/sys/".toList ++ ("devices/system/edac/mc".toList ++ '/' :: "mc0x".toList))).isSome
      ∧ FindStringSubmatch edacMemControllerRE
          ("/sys/".toList
            ++ ("devices/system/edac/mc".toList ++ '/' :: ("mc".toList ++ "12".toList)))
        = some ["/sys/".toList
            ++ ("devices/system/edac/mc".toList ++ '/' :: ("mc".toList ++ "12".toList)),
          "12".toList] :=
  ⟨C7_discovery_and_identity_lock_step.1 envTwoControllers [mc0, mc1] (by decide),
    C7_discovery_and_identity_lock_step.2.1 "/sys/".toList "mc0x".toList (by decide),
    C7_discovery_and_identity_lock_step.2.2 "/sys/".toList "12".toList (by decide)
      (by decide)⟩

end NodeExporter
